import Mathlib

/-!
Verification development for the `header-translator` crate: a shallow
embedding of its type-translation core (`rust_type.rs`) and of the
multi-target driver loop (`main.rs`), together with theorems about the
attribute-spelling parser, the lifetime update discipline, the type
algebra renderers, the ext-vector detection and the global-analysis
fixups.

Strings are modelled with Lean `String`/`List Char`; Rust `&str`
operations (`strip_prefix`, `strip_suffix`, `trim`, `contains`) are
re-implemented below.  Logging macros (`error!`, `warn!`) are modelled
as events accumulated in a state monad; `panic!`/`expect`/`assert!`
are modelled as `Except.error`.
-/

set_option maxRecDepth 8000

namespace HeaderTranslator

/-- Drop `needle` from the front of `s`, if it is a prefix (Rust `str::strip_prefix`). -/
def dropPre? : List Char → List Char → Option (List Char)
  | s, [] => some s
  | [], _ :: _ => none
  | c :: s, d :: ds => if c = d then dropPre? s ds else none

/-- Drop `needle` from the back of `s`, if it is a suffix (Rust `str::strip_suffix`). -/
def dropSuf? (s needle : List Char) : Option (List Char) :=
  (dropPre? s.reverse needle.reverse).map List.reverse

/-- Remove leading whitespace (half of Rust `str::trim`). -/
def trimLeft (s : List Char) : List Char := s.dropWhile Char.isWhitespace

/-- Rust `str::trim`: remove whitespace from both ends. -/
def trimChars (s : List Char) : List Char :=
  (trimLeft (trimLeft s).reverse).reverse

/-- Whether `sub` occurs contiguously inside `s` (Rust `str::contains` with a string pattern). -/
def listContains : List Char → List Char → Bool
  | _, [] => true
  | [], _ :: _ => false
  | c :: s, sub => (dropPre? (c :: s) sub).isSome || listContains s sub

/-- `String` wrapper for `dropPre?`. -/
def strDropPre? (s needle : String) : Option String :=
  (dropPre? s.toList needle.toList).map String.mk

/-- `String` wrapper for `dropSuf?`. -/
def strDropSuf? (s needle : String) : Option String :=
  (dropSuf? s.toList needle.toList).map String.mk

/-- `String` wrapper for `trimChars` (Rust `str::trim`). -/
def strTrim (s : String) : String := String.mk (trimChars s.toList)

/-- `String` wrapper for `listContains` (Rust `str::contains`). -/
def strContains (s sub : String) : Bool := listContains s.toList sub.toList

/-- Split `s` at the first occurrence of character `c` (Rust `str::split_once`),
returning the parts before and after the separator. -/
def splitOnceChar (c : Char) : List Char → Option (List Char × List Char)
  | [] => none
  | d :: s =>
    if d = c then some ([], s)
    else match splitOnceChar c s with
      | some (pre, post) => some (d :: pre, post)
      | none => none

/-- Clang nullability attribute values (from the `clang` crate). -/
inductive Nullability where
  | NonNull
  | Nullable
  | Unspecified
deriving DecidableEq, Repr

/-- ObjCLifetime (source `rust_type.rs`, `enum Lifetime`). -/
inductive Lifetime where
  | Unspecified
  | Unretained
  | Strong
  | Weak
  | Autoreleasing
deriving DecidableEq, Repr

/-- Which end of the attributed string a token is stripped from
(source `rust_type.rs`, `enum ParsePosition`). -/
inductive ParsePosition where
  | Suffix
  | Prefix
deriving DecidableEq, Repr

/-- `ParsePosition::strip` from the source: `strip_suffix` / `strip_prefix`. -/
def ParsePosition.strip (pos : ParsePosition) (s needle : String) : Option String :=
  match pos with
  | .Suffix => strDropSuf? s needle
  | .Prefix => strDropPre? s needle

/-- The primitive leaf types of the algebra (source `enum Primitive`). -/
inductive Primitive where
  | Void | C99Bool | Char | SChar | UChar | Short | UShort | Int | UInt
  | Long | ULong | LongLong | ULongLong | Float | Double | F32 | F64
  | I8 | U8 | I16 | U16 | I32 | U32 | I64 | U64 | ISize | USize
  | PtrDiff | VaList | ObjcBool | NSInteger | NSUInteger | Imp
deriving DecidableEq, Repr

/-- `Primitive::as_str` from the source. -/
def Primitive.as_str : Primitive → String
  | .Void => "c_void"
  | .C99Bool => "bool"
  | .Char => "c_char"
  | .SChar => "c_schar"
  | .UChar => "c_uchar"
  | .Short => "c_short"
  | .UShort => "c_ushort"
  | .Int => "c_int"
  | .UInt => "c_uint"
  | .Long => "c_long"
  | .ULong => "c_ulong"
  | .LongLong => "c_longlong"
  | .ULongLong => "c_ulonglong"
  | .Float => "c_float"
  | .Double => "c_double"
  | .F32 => "f32"
  | .F64 => "f64"
  | .I8 => "i8"
  | .U8 => "u8"
  | .I16 => "i16"
  | .U16 => "u16"
  | .I32 => "i32"
  | .U32 => "u32"
  | .I64 => "i64"
  | .U64 => "u64"
  | .ISize => "isize"
  | .USize => "usize"
  | .VaList => "VaList"
  | .PtrDiff => "isize"
  | .ObjcBool => "Bool"
  | .NSInteger => "NSInteger"
  | .NSUInteger => "NSUInteger"
  | .Imp => "Option<Imp>"

/-- Modelled from the spec (§3): thread-safety facts carried by an item
reference; the inference code (`thread_safety.rs`) is not part of the
sources, so the record is carried opaquely. -/
structure ThreadSafety where
  main_thread_only : Bool := false
  sendable : Option Bool := none
  explicit : Bool := false
deriving DecidableEq, Repr

/-- `ThreadSafety::dummy` (used when no information is available). -/
def ThreadSafety.dummy : ThreadSafety := {}

/-- Modelled from the spec (§3): the stable item identifier.  The
`(library, module_path)` location and the `path()` rendering live in the
missing `id.rs`; the claims depend only on the name, so `path()` is
modelled as rendering the name. -/
structure ItemIdentifier where
  name : String
deriving DecidableEq, Repr

/-- Modelled from the spec: `ItemIdentifier::path` renders the item's
(qualified) name; modelled as the bare name. -/
def ItemIdentifier.path (id : ItemIdentifier) : String := id.name

/-- A reference to a class or protocol declaration (source `struct ItemRef`). -/
structure ItemRef where
  id : ItemIdentifier
  thread_safety : ThreadSafety
  required_items : List ItemIdentifier
deriving DecidableEq, Repr

/-- The internal type algebra (source `enum Ty`). -/
inductive Ty where
  | Primitive (p : Primitive)
  | Class (decl : ItemRef) (generics : List Ty) (protocols : List ItemRef)
  | GenericParam (name : String)
  | AnyObject (protocols : List ItemRef)
  | AnyProtocol
  | AnyClass (protocols : List ItemRef)
  | Self_
  | Sel (nullability : Nullability)
  | Pointer (nullability : Nullability) (is_const : Bool) (lifetime : Lifetime) (pointee : Ty)
  | TypeDef (id : ItemIdentifier) (nullability : Nullability) (lifetime : Lifetime) (toTy : Ty) (is_cf : Bool)
  | IncompleteArray (nullability : Nullability) (is_const : Bool) (pointee : Ty)
  | Array (element_type : Ty) (num_elements : Nat)
  | RustArray (element_type : Ty) (num_elements : Nat)
  | Enum (id : ItemIdentifier) (ty : Ty)
  | Struct (id : ItemIdentifier) (fields : List Ty) (is_bridged : Bool)
  | Fn (is_variadic : Bool) (no_escape : Bool) (arguments : List Ty) (result_type : Ty)
  | Block (sendable : Option Bool) (no_escape : Bool) (arguments : List Ty) (result_type : Ty)

/-- A diagnostic emitted by the `error!` / `warn!` logging macros. -/
inductive LogEvent where
  | errorEvent (msg : String)
  | warnEvent (msg : String)
deriving DecidableEq, Repr

/-- The effect monad of the embedding: accumulated diagnostics
(`error!` / `warn!` logging) plus aborts (`panic!` / `expect` / failed
assertions), which carry the panic message. -/
abbrev PM (α : Type) : Type := StateT (List LogEvent) (Except String) α

/-- Run a `PM` computation with an empty log. -/
def runPM {α : Type} (x : PM α) : Except String (α × List LogEvent) := x.run []

/-- Emit an `error!` diagnostic and continue. -/
def logError (msg : String) : PM Unit := modify (fun l => l ++ [LogEvent.errorEvent msg])

/-- Emit a `warn!` diagnostic and continue. -/
def logWarn (msg : String) : PM Unit := modify (fun l => l ++ [LogEvent.warnEvent msg])

/-- Append a batch of diagnostics (used for the attribute parser's drop check). -/
def emitLog (l : List LogEvent) : PM Unit := modify (fun acc => acc ++ l)

/-- Rust `Option::expect`: unwrap or abort with the given panic message. -/
def expectSome {α : Type} (x : Option α) (msg : String) : PM α :=
  match x with
  | some v => pure v
  | none => throw msg

/-- Helper for parsing attributes off display-name strings (source
`struct AttributeParser`).  `original_name` is the `_original_name`
field, kept only for diagnostics. -/
structure AttributeParser where
  original_name : String
  name : String
  expected_name : String
deriving DecidableEq, Repr

/-- `AttributeParser::new`: both strings are trimmed on construction. -/
def AttributeParser.new (name expected_name : String) : AttributeParser :=
  { original_name := name, name := strTrim name, expected_name := strTrim expected_name }

/-- `AttributeParser::strip`: try to remove `needle` from the given end of
the attributed `name`.  The strip succeeds if the needle is present there
and either (a) absent from `expected_name`, or (b) present on
`expected_name` too and appearing twice on `name` (the double-appearance
case, e.g. `"const char * _Nonnull  _Nonnull[]"`), in which case only one
occurrence is removed.  Returns whether it succeeded together with the
updated parser. -/
def AttributeParser.strip (p : AttributeParser) (needle : String) (position : ParsePosition) :
    Bool × AttributeParser :=
  match position.strip p.name needle with
  | some rest =>
    if (position.strip p.expected_name needle).isSome then
      let rest := strTrim rest
      if (position.strip rest needle).isSome then
        (true, { p with name := rest })
      else
        (false, p)
    else
      (true, { p with name := strTrim rest })
  | none => (false, p)

/-- `AttributeParser::lifetime`: strip one ObjC ownership token, if present. -/
def AttributeParser.lifetime (p : AttributeParser) (position : ParsePosition) :
    Lifetime × AttributeParser :=
  let (b, p) := p.strip "__unsafe_unretained" position
  if b then (.Unretained, p) else
  let (b, p) := p.strip "__strong" position
  if b then (.Strong, p) else
  let (b, p) := p.strip "__weak" position
  if b then (.Weak, p) else
  let (b, p) := p.strip "__autoreleasing" position
  if b then (.Autoreleasing, p) else
  (.Unspecified, p)

/-- `AttributeParser::is_kindof`: strip `__kindof` (ignored downstream). -/
def AttributeParser.is_kindof (p : AttributeParser) (position : ParsePosition) :
    Bool × AttributeParser :=
  p.strip "__kindof" position

/-- `AttributeParser::is_const`: strip `const`. -/
def AttributeParser.is_const (p : AttributeParser) (position : ParsePosition) :
    Bool × AttributeParser :=
  p.strip "const" position

/-- `AttributeParser::nullability`: strip one nullability token, if present. -/
def AttributeParser.nullability (p : AttributeParser) (position : ParsePosition) :
    Option Nullability × AttributeParser :=
  let (b, p) := p.strip "_Nullable" position
  if b then (some .Nullable, p) else
  let (b, p) := p.strip "_Nonnull" position
  if b then (some .NonNull, p) else
  let (b, p) := p.strip "_Null_unspecified" position
  if b then (some .Unspecified, p) else
  (none, p)

/-- `AttributeParser::nullable_result`: strip `_Nullable_result`. -/
def AttributeParser.nullable_result (p : AttributeParser) (position : ParsePosition) :
    Bool × AttributeParser :=
  p.strip "_Nullable_result" position

/-- `AttributeParser::set_constant_array`: cut both strings at the first
`[` (panics if absent) and trim, removing a constant-array suffix. -/
def AttributeParser.set_constant_array (p : AttributeParser) : PM AttributeParser := do
  let (namePre, _) ← expectSome (splitOnceChar '[' p.name.toList) "array to contain ["
  let (expPre, _) ← expectSome (splitOnceChar '[' p.expected_name.toList) "array to contain ["
  pure { p with name := strTrim (String.mk namePre), expected_name := strTrim (String.mk expPre) }

/-- `AttributeParser::set_incomplete_array`: strip the trailing `[]` from
both strings (panics if absent) and trim. -/
def AttributeParser.set_incomplete_array (p : AttributeParser) : PM AttributeParser := do
  let nameRest ← expectSome (strDropSuf? p.name "[]") "array to end with []"
  let expRest ← expectSome (strDropSuf? p.expected_name "[]") "array to end with []"
  pure { p with name := strTrim nameRest, expected_name := strTrim expRest }

/-- `AttributeParser::set_fn_ptr`: extract the text between the first `(`
and the following `)` in both strings (panics if absent), turning
`void (^ _Nonnull __strong)(...)` into `^ _Nonnull __strong`. -/
def AttributeParser.set_fn_ptr (p : AttributeParser) : PM AttributeParser := do
  let inner : String → PM String := fun s => do
    let (_, post) ← expectSome (splitOnceChar '(' s.toList) "fn to have begin parenthesis"
    let (pre, _) ← expectSome (splitOnceChar ')' post) "fn to have end parenthesis"
    pure (strTrim (String.mk pre))
  let name ← inner p.name
  let expected_name ← inner p.expected_name
  pure { p with name, expected_name }

/-- `AttributeParser::set_inner_pointer`: strip a trailing `*` from the
attributed name, logging (not aborting) if it is missing. -/
def AttributeParser.set_inner_pointer (p : AttributeParser) : PM AttributeParser := do
  match strDropSuf? p.name "*" with
  | some rest => pure { p with name := strTrim rest }
  | none => do
    logError "expected pointer to have star"
    pure p

/-- `impl Drop for AttributeParser`: at scope exit, an error is logged if
the residual attributed name differs from the expected canonical name.
(`std::thread::panicking()` is modelled as `false`: the embedding tracks
unwinding separately, via `Except`.) -/
def AttributeParser.dropLog (p : AttributeParser) : List LogEvent :=
  if p.name ≠ p.expected_name then [LogEvent.errorEvent "could not extract all attributes"] else []

/-- `Lifetime::update`, as a pure function: given current cell value and
new value, return the updated cell together with whether an
`invalid lifetime update` error was logged. -/
def Lifetime.update (old new : Lifetime) : Lifetime × Bool :=
  match old, new with
  | old, .Unspecified => (old, false)
  | .Unspecified, new => (new, false)
  | .Strong, .Strong => (.Strong, false)
  | old, _ => (old, true)

/-- `Lifetime::update` in the effect monad: logs the error recorded by
`Lifetime.update` and returns the new cell value. -/
def Lifetime.updateM (old new : Lifetime) : PM Lifetime := do
  let (v, err) := Lifetime.update old new
  if err then logError "invalid lifetime update"
  pure v

/-- `update_nullability`: `Unspecified → new` is allowed, absence of a new
value is a no-op, anything else logs `invalid nullability update` and
keeps the old value. -/
def update_nullability (nullability : Nullability) (new : Option Nullability) : PM Nullability :=
  match nullability, new with
  | old, none => pure old
  | .Unspecified, some n => pure n
  | old, some _ => do
    logError "invalid nullability update"
    pure old

/-- The Clang type kinds dispatched on by `Ty::parse` (from the `clang`
crate), plus representative kinds the translator does not handle
(`Half`, `Int128`, `ExtVector`), which fall into the unknown-kind arm. -/
inductive TypeKind where
  | Void | Bool | CharS | CharU | SChar | UChar | Short | UShort | Int | UInt
  | Long | ULong | LongLong | ULongLong | Float | Double
  | Record | Enum
  | ObjCId | ObjCClass | ObjCSel | ObjCInterface | ObjCObject
  | Pointer | BlockPointer | ObjCObjectPointer
  | Typedef | FunctionPrototype | FunctionNoPrototype
  | IncompleteArray | ConstantArray
  | Unexposed | Attributed
  | Half | Int128 | ExtVector
deriving DecidableEq, Repr

/-- The Clang entity kinds the translator inspects. -/
inductive EntityKind where
  | ObjCInterfaceDecl | ObjCProtocolDecl | MacroExpansion | TemplateTypeParameter
  | TypedefDecl | StructDecl | EnumDecl | OtherDecl
deriving DecidableEq, Repr

/-- Clang calling conventions (only C is accepted by the translator). -/
inductive CallingConvention where
  | Cdecl
  | OtherConvention
deriving DecidableEq, Repr

/-- The compiler-macro attributes recognized by the unexposed-token
parser (`unexposed_attr.rs` is not among the sources; the variants are
those matched on in `Ty::parse`, per the spec §4.2). -/
inductive UnexposedAttr where
  | ReturnsRetained
  | ReturnsNotRetained
  | NoEscape
  | UIActor
  | NonIsolated
  | Sendable
  | NonSendable
  | OtherAttr
deriving DecidableEq, Repr

/-- The observable data of a `clang::Type`, parameterized by the node
types so the recursive knot can be tied below.  Each field models the
accessor of the same name on the Rust side; `none` models an accessor
returning `None`. -/
structure CTData (T E : Type) where
  kind : TypeKind
  displayName : String := ""
  nullability : Option Nullability := none
  isConstQualified : Bool := false
  modifiedType : Option T := none
  canonicalType : Option T := none
  elaborated : Option Bool := none
  elaboratedType : Option T := none
  pointeeType : Option T := none
  objcObjectBaseType : Option T := none
  objcTypeArguments : List T := []
  objcProtocolDeclarations : List E := []
  declaration : Option E := none
  typedefName : Option String := none
  elementType : Option T := none
  size : Option Nat := none
  argumentTypes : Option (List T) := none
  resultType : Option T := none
  callingConvention : Option CallingConvention := none
  isVariadic : Bool := false
  structFields : Option (List E) := none

/-- The observable data of a `clang::Entity`.  `refEntity` models
`get_location().get_entity()` (collapsed to one lookup); `threadSafety`,
`requiredItems` and `isBridged` model the results of the missing
`thread_safety.rs` / `stmt.rs` helpers, per the spec. -/
structure CEData (T E : Type) where
  kind : EntityKind
  name : Option String := none
  typedefUnderlyingType : Option T := none
  enumUnderlyingType : Option T := none
  entityType : Option T := none
  definition : Option E := none
  refEntity : Option E := none
  threadSafety : ThreadSafety := ThreadSafety.dummy
  requiredItems : List ItemIdentifier := []
  isBridged : Bool := false

mutual

/-- A Clang type node, as observed through the accessors used by `Ty::parse`. -/
inductive ClangType where
  | mk (data : CTData ClangType ClangEntity)

/-- A Clang entity node (declarations, protocol references, fields). -/
inductive ClangEntity where
  | mk (data : CEData ClangType ClangEntity)

end

/-- Unpack the data of a Clang type node. -/
def ClangType.data : ClangType → CTData ClangType ClangEntity
  | .mk d => d

/-- Unpack the data of a Clang entity node. -/
def ClangEntity.data : ClangEntity → CEData ClangType ClangEntity
  | .mk d => d

/-- `Type::get_kind`. -/
def ClangType.kind (t : ClangType) : TypeKind := t.data.kind

/-- `Type::get_display_name`. -/
def ClangType.displayName (t : ClangType) : String := t.data.displayName

/-- `Type::get_nullability`. -/
def ClangType.nullability (t : ClangType) : Option Nullability := t.data.nullability

/-- `Type::is_const_qualified`. -/
def ClangType.isConstQualified (t : ClangType) : Bool := t.data.isConstQualified

/-- `Type::get_modified_type`. -/
def ClangType.modifiedType (t : ClangType) : Option ClangType := t.data.modifiedType

/-- `Type::get_canonical_type` (modelled as optional; absent aborts). -/
def ClangType.canonicalType (t : ClangType) : Option ClangType := t.data.canonicalType

/-- `Type::is_elaborated`. -/
def ClangType.elaborated (t : ClangType) : Option Bool := t.data.elaborated

/-- `Type::get_elaborated_type`. -/
def ClangType.elaboratedType (t : ClangType) : Option ClangType := t.data.elaboratedType

/-- `Type::get_pointee_type`. -/
def ClangType.pointeeType (t : ClangType) : Option ClangType := t.data.pointeeType

/-- `Type::get_objc_object_base_type`. -/
def ClangType.objcObjectBaseType (t : ClangType) : Option ClangType := t.data.objcObjectBaseType

/-- `Type::get_objc_type_arguments`. -/
def ClangType.objcTypeArguments (t : ClangType) : List ClangType := t.data.objcTypeArguments

/-- `Type::get_objc_protocol_declarations`. -/
def ClangType.objcProtocolDeclarations (t : ClangType) : List ClangEntity :=
  t.data.objcProtocolDeclarations

/-- `Type::get_declaration`. -/
def ClangType.declaration (t : ClangType) : Option ClangEntity := t.data.declaration

/-- `Type::get_typedef_name`. -/
def ClangType.typedefName (t : ClangType) : Option String := t.data.typedefName

/-- `Type::get_element_type`. -/
def ClangType.elementType (t : ClangType) : Option ClangType := t.data.elementType

/-- `Type::get_size`. -/
def ClangType.size (t : ClangType) : Option Nat := t.data.size

/-- `Type::get_argument_types`. -/
def ClangType.argumentTypes (t : ClangType) : Option (List ClangType) := t.data.argumentTypes

/-- `Type::get_result_type`. -/
def ClangType.resultType (t : ClangType) : Option ClangType := t.data.resultType

/-- `Type::get_calling_convention`. -/
def ClangType.callingConvention (t : ClangType) : Option CallingConvention :=
  t.data.callingConvention

/-- `Type::is_variadic`. -/
def ClangType.isVariadic (t : ClangType) : Bool := t.data.isVariadic

/-- `Type::get_fields`. -/
def ClangType.structFields (t : ClangType) : Option (List ClangEntity) := t.data.structFields

/-- `Entity::get_kind`. -/
def ClangEntity.kind (e : ClangEntity) : EntityKind := e.data.kind

/-- `Entity::get_name`. -/
def ClangEntity.name (e : ClangEntity) : Option String := e.data.name

/-- `Entity::get_typedef_underlying_type`. -/
def ClangEntity.typedefUnderlyingType (e : ClangEntity) : Option ClangType :=
  e.data.typedefUnderlyingType

/-- `Entity::get_enum_underlying_type`. -/
def ClangEntity.enumUnderlyingType (e : ClangEntity) : Option ClangType :=
  e.data.enumUnderlyingType

/-- `Entity::get_type` (used for struct fields). -/
def ClangEntity.entityType (e : ClangEntity) : Option ClangType := e.data.entityType

/-- `Entity::get_definition`. -/
def ClangEntity.definition (e : ClangEntity) : Option ClangEntity := e.data.definition

/-- `get_location().get_entity()`, collapsed into one lookup. -/
def ClangEntity.refEntity (e : ClangEntity) : Option ClangEntity := e.data.refEntity

/-- Modelled from the spec: the thread-safety record computed by
`ThreadSafety::from_decl` (the inference code is not in the sources). -/
def ClangEntity.threadSafety (e : ClangEntity) : ThreadSafety := e.data.threadSafety

/-- Modelled from the spec: the result of `items_required_by_decl`
(`stmt.rs` is not in the sources). -/
def ClangEntity.requiredItems (e : ClangEntity) : List ItemIdentifier := e.data.requiredItems

/-- Modelled from the spec (I3): whether the declaration carries an
`objc_bridge` attribute (`stmt::is_bridged` is not in the sources). -/
def ClangEntity.isBridgedDecl (e : ClangEntity) : Bool := e.data.isBridged

/-- Modelled from the spec (§4.5): the process-wide `Context`.  Only the
renaming maps are modelled (as association lists); the `external` item
map is modelled as empty, and no claim depends on these. -/
structure Context where
  typedefRenames : List (String × String) := []
  protocolRenames : List (String × String) := []

/-- Modelled from the spec: `Context::replace_typedef_name` — apply a
configured policy rename, or keep the identifier. -/
def Context.replace_typedef_name (ctx : Context) (id : ItemIdentifier) (_is_cf : Bool) :
    ItemIdentifier :=
  match ctx.typedefRenames.lookup id.name with
  | some n => { id with name := n }
  | none => id

/-- Modelled from the spec: `Context::replace_protocol_name` — resolve a
protocol-name conflict, or keep the identifier. -/
def Context.replace_protocol_name (ctx : Context) (id : ItemIdentifier) : ItemIdentifier :=
  match ctx.protocolRenames.lookup id.name with
  | some n => { id with name := n }
  | none => id

/-- Modelled from the spec (§3): `ItemIdentifier::new` builds the stable
identifier of a declaration from its name (`id.rs` is not in the
sources; the location part is not modelled). -/
def ItemIdentifier.new (e : ClangEntity) (_ctx : Context) : ItemIdentifier :=
  { name := e.name.getD "unknown" }

/-- `stmt::is_bridged` (modelled from the spec: reads the declaration's
bridge attribute). -/
def is_bridged (e : ClangEntity) (_ctx : Context) : Bool := e.isBridgedDecl

/-- `ItemRef::new`: resolve a referenced declaration to an `ItemRef`.
The external-items redirect of the `Context` is modelled as empty. -/
def ItemRef.new (entity_ref : ClangEntity) (ctx : Context) : PM ItemRef := do
  let entity ← expectSome entity_ref.refEntity "itemref entity"
  let id := ItemIdentifier.new entity ctx
  match entity.kind with
  | .ObjCInterfaceDecl | .ObjCProtocolDecl =>
    pure { id, thread_safety := entity.threadSafety, required_items := entity.requiredItems }
  | .MacroExpansion => do
    let id ←
      match entity_ref.name with
      | some n => pure { id with name := n }
      | none => do
        logError "macro ref did not have name"
        pure id
    pure { id, thread_safety := ThreadSafety.dummy, required_items := [id] }
  | _ => do
    logError "could not get declaration. Add appropriate external module to translation-config.toml"
    pure { id, thread_safety := ThreadSafety.dummy, required_items := [id] }

/-- `check_nullability`: compare the parsed nullability against Clang's
own, logging on mismatch, and default to `Unspecified`. -/
def check_nullability (ty : ClangType) (new : Option Nullability) : PM Nullability := do
  let on_ty := ty.nullability
  if new ≠ on_ty then logError "failed parsing nullability"
  pure (new.getD .Unspecified)

/-- Split `s` at the last occurrence of `pat` whose following text
satisfies `ok`, returning the text before and after that occurrence.
This is the backtracking behaviour of a greedy `(.*)` capture before a
literal in the source's regex. -/
def lastSplitSuchThat (pat : List Char) (ok : List Char → Bool) :
    List Char → Option (List Char × List Char)
  | [] =>
    match dropPre? [] pat with
    | some post => if ok post then some ([], post) else none
    | none => none
  | c :: rest =>
    match lastSplitSuchThat pat ok rest with
    | some (pre, post) => some (c :: pre, post)
    | none =>
      match dropPre? (c :: rest) pat with
      | some post => if ok post then some ([], post) else none
      | none => none

/-- Parse a maximal run of decimal digits as a number. -/
def digitsToNat (ds : List Char) : Nat :=
  ds.foldl (fun n c => n * 10 + (c.toNat - 48)) 0

/-- Whether `post` starts with a nonempty digit run immediately followed
by `)` — the `(\d+)\)` tail of the source's ext-vector regex. -/
def extVectorDigitsOk (post : List Char) : Bool :=
  let ds := post.takeWhile Char.isDigit
  let rest := post.dropWhile Char.isDigit
  !ds.isEmpty && rest.head? = some ')'

/-- Extract `N` from the last `ext_vector_type(N)` occurrence in `post`
(the greedy `.*ext_vector_type\((\d+)\)` part of the source's regex). -/
def extVectorN (post : List Char) : Option Nat :=
  match lastSplitSuchThat "ext_vector_type(".toList extVectorDigitsOk post with
  | some (_, after) => some (digitsToNat (after.takeWhile Char.isDigit))
  | none => none

/-- The primitive-spelling table of `parse_ext_vector_type`. -/
def extVectorPrimitive (primitive : String) : Option Primitive :=
  match primitive with
  | "float" => some .Float
  | "double" => some .Double
  | "uint" => some .UInt
  | "unsigned int" => some .UInt
  | "int" => some .Int
  | "short" => some .Short
  | "ushort" => some .UShort
  | "unsigned short" => some .UShort
  | "uchar" => some .UChar
  | "unsigned char" => some .UChar
  | "char" => some .Char
  | "long" => some .Long
  | "ulong" => some .ULong
  | "unsigned long" => some .ULong
  | "half" => some .I16
  | "_Float16" => some .I16
  | _ => none

/-- `parse_ext_vector_type`: match the display name against the regex
`(.*).* __attribute__.*ext_vector_type\((\d+)\).*` (capture 1 is the
text before the last ` __attribute__` occurrence that is followed by an
`ext_vector_type(N)` pattern, capture 2 is `N`) and map the captured
primitive spelling.  An unhandled primitive logs an error and yields
`none`, letting `Ty::parse` continue. -/
def parse_ext_vector_type (name : String) : PM (Option Ty) := do
  match lastSplitSuchThat " __attribute__".toList (fun post => (extVectorN post).isSome)
      name.toList with
  | some (pre, post) =>
    match extVectorN post with
    | some n =>
      let primitive := String.mk pre
      match extVectorPrimitive primitive with
      | some ty => pure (some (Ty.RustArray (Ty.Primitive ty) n))
      | none => do
        logError "Unhandled ext_vector_type primtiive"
        pure none
    | none => pure none
  | none => pure none

/-- The argument-taking shape of a recognized compiler macro. -/
inductive MacroShape where
  | noArgs (attr : Option UnexposedAttr)
  | withArgs (attr : Option UnexposedAttr)
deriving DecidableEq, Repr

/-- Modelled from the spec (§4.2): the macro-name table of
`UnexposedAttr::from_name` (`unexposed_attr.rs` is not in the sources).
Attributes with no translator-visible effect map to `none`. -/
def macroTable (name : String) : Option MacroShape :=
  match name with
  | "NS_RETURNS_RETAINED" => some (.noArgs (some .ReturnsRetained))
  | "NS_RETURNS_NOT_RETAINED" => some (.noArgs (some .ReturnsNotRetained))
  | "NS_NOESCAPE" => some (.noArgs (some .NoEscape))
  | "NS_SWIFT_UI_ACTOR" => some (.noArgs (some .UIActor))
  | "NS_SWIFT_NONISOLATED" => some (.noArgs (some .NonIsolated))
  | "NS_SWIFT_SENDABLE" => some (.noArgs (some .Sendable))
  | "NS_SWIFT_NONSENDABLE" => some (.noArgs (some .NonSendable))
  | "NS_REFINED_FOR_SWIFT" => some (.noArgs none)
  | "NS_RETURNS_INNER_POINTER" => some (.noArgs none)
  | "API_AVAILABLE" => some (.withArgs none)
  | "API_UNAVAILABLE" => some (.withArgs none)
  | "API_DEPRECATED" => some (.withArgs none)
  | "API_DEPRECATED_WITH_REPLACEMENT" => some (.withArgs none)
  | "NS_SWIFT_NAME" => some (.withArgs none)
  | "NS_SWIFT_UNAVAILABLE" => some (.withArgs none)
  | _ => none

/-- Take a leading identifier token (letters, digits, underscores). -/
def takeIdent (s : List Char) : List Char × List Char :=
  (s.takeWhile (fun c => c.isAlphanum || c = '_'), s.dropWhile (fun c => c.isAlphanum || c = '_'))

/-- Skip a balanced parenthesized token group; `depth` is the current
nesting, the result is the remainder after the group closes. -/
def skipGroup : List Char → Nat → Option (List Char)
  | [], _ => none
  | c :: rest, depth =>
    if c = '(' then skipGroup rest (depth + 1)
    else if c = ')' then
      match depth with
      | 0 => none
      | 1 => some rest
      | d + 1 => skipGroup rest d
    else skipGroup rest depth

/-- Modelled from the spec (§4.2): `parse_unexposed_tokens` — if the
display name starts with a known compiler-macro identifier, consume it
(and its parenthesized group, when the macro takes one) and return the
remainder together with the recognized attribute.  The exact token-level
re-spacing performed by the Rust `TokenStream` round-trip is not
modelled; the remainder is returned trimmed. -/
def parse_unexposed_tokens (s : String) : String × Option UnexposedAttr :=
  let l := trimChars s.toList
  let (ident, rest) := takeIdent l
  if ident.isEmpty then (s, none)
  else
    match macroTable (String.mk ident) with
    | some (.noArgs attr) => (String.mk (trimChars rest), attr)
    | some (.withArgs attr) =>
      let rest := trimChars rest
      match rest with
      | '(' :: inner =>
        match skipGroup inner 1 with
        | some remainder => (String.mk (trimChars remainder), attr)
        | none => (String.mk (trimChars rest), attr)
      | _ => (String.mk (trimChars rest), attr)
    | none => (s, none)

/-- Modelled from the spec (§9 global state): the known-CF-name table,
parsed from the embedded `CFDatabase.def` asset (not among the sources);
a few representative entries. -/
def KNOWN_CF_TYPES : List String :=
  ["CFAllocatorRef", "CFArrayRef", "CFDictionaryRef", "CFStringRef", "CFTypeRef", "ODSessionRef"]

/-- `Ty::is_inner_cf_type`: whether the underlying type of a typedef
makes the typedef a CF-like type (bridged pointee struct, known CF
name, or bridged `void *` typedef). -/
def Ty.is_inner_cf_type (self : Ty) (typedef_name : String) (typedef_is_bridged : Bool) : Bool :=
  match self with
  | .TypeDef _ _ _ _ is_cf => is_cf
  | .Pointer _ _ _ pointee =>
    match pointee with
    | .Struct _ _ is_bridged => is_bridged || KNOWN_CF_TYPES.contains typedef_name
    | .Primitive .Void => typedef_is_bridged || KNOWN_CF_TYPES.contains typedef_name
    | _ => false
  | _ => false

/-- The `while let TypeKind::Unexposed | TypeKind::Attributed` peeling
loop at the head of `Ty::parse`: advance to the modified type, reading
Clang's unexposed nullability and stripping recognized macro attributes
from both display names on the way.  Returns the peeled type, both
display names, the unexposed nullability, the `no_escape` flag and the
updated lifetime. -/
def Ty.peelLoop (fuel : Nat) (ty : ClangType) (attributed_name name : String)
    (unexposed_nullability : Option Nullability) (no_escape : Bool) (lifetime : Lifetime) :
    PM (ClangType × String × String × Option Nullability × Bool × Lifetime) :=
  match ty.kind with
  | .Attributed =>
    match fuel with
    | 0 => throw "parse fuel exhausted"
    | fuel + 1 => do
      let m ← expectSome ty.modifiedType "attributed type to have modified type"
      Ty.peelLoop fuel m attributed_name m.displayName unexposed_nullability no_escape lifetime
  | .Unexposed =>
    match fuel with
    | 0 => throw "parse fuel exhausted"
    | fuel + 1 => do
      let unexposed_nullability ←
        match ty.nullability with
        | some n => do
          if unexposed_nullability.isSome then logError "unexposed nullability already set"
          pure (some n)
        | none => pure unexposed_nullability
      let (new_attributed_name, attributed_attr) := parse_unexposed_tokens attributed_name
      let (new_name, attr) := parse_unexposed_tokens name
      if attributed_attr ≠ attr then logError "attributed attr was not equal to attr"
      let (lifetime, no_escape) ←
        match attr with
        | some .NonIsolated | some .UIActor | some .Sendable | some .NonSendable =>
          pure (lifetime, no_escape)
        | some .ReturnsRetained => pure (Lifetime.Strong, no_escape)
        | some .ReturnsNotRetained => pure (Lifetime.Autoreleasing, no_escape)
        | some .NoEscape => pure (lifetime, true)
        | some _ => do
          logError "unknown attribute on type"
          pure (lifetime, no_escape)
        | none => pure (lifetime, no_escape)
      match ty.modifiedType with
      | some modified =>
        Ty.peelLoop fuel modified new_attributed_name new_name unexposed_nullability no_escape
          lifetime
      | none => do
        logError "expected unexposed / attributed type to have modified type"
        let c ← expectSome ty.canonicalType "canonical type"
        pure (c, new_attributed_name, c.displayName, unexposed_nullability, no_escape, lifetime)
  | _ => pure (ty, attributed_name, name, unexposed_nullability, no_escape, lifetime)

/-- The inner `while let TypeKind::Attributed` loop of the
`ObjCObjectPointer` arm: peel attributed wrappers only. -/
def Ty.peelAttributed (fuel : Nat) (ty : ClangType) : PM ClangType :=
  match ty.kind with
  | .Attributed =>
    match fuel with
    | 0 => throw "parse fuel exhausted"
    | fuel + 1 => do
      let m ← expectSome ty.modifiedType "attributed type to have modified type"
      Ty.peelAttributed fuel m
  | _ => pure ty

/-- `Ty::parse`: translate a Clang type (with its attributed spelling)
into the type algebra.  `fuel` bounds the recursion depth of the
embedding; every claim is evaluated with sufficient fuel. -/
def Ty.parse (fuel : Nat) (attributed_ty : ClangType) (lifetime : Lifetime) (context : Context) :
    PM Ty :=
  match fuel with
  | 0 => throw "parse fuel exhausted"
  | fuel + 1 => do
    let ty := attributed_ty
    let attributed_name := attributed_ty.displayName
    let name := ty.displayName
    -- If name contains the ext_vector_type attribute, parse it separately.
    let vector_ty ←
      if strContains name "ext_vector_type" then parse_ext_vector_type name else pure none
    match vector_ty with
    | some vector_ty => return vector_ty
    | none => do
    let (ty, attributed_name, name, unexposed_nullability, no_escape, lifetime) ←
      Ty.peelLoop fuel ty attributed_name name none false lifetime
    let elaborated_ty := ty
    let ty ←
      if ty.elaborated = some true then expectSome ty.elaboratedType "elaborated"
      else pure ty
    let get_is_const : Bool → PM Bool := fun new => do
      if new then do
        if !attributed_ty.isConstQualified || ty.isConstQualified then
          logWarn "unnecessarily stripped const"
        pure true
      else do
        if attributed_ty.isConstQualified then
          logWarn "type was const but that could not be stripped"
        pure ty.isConstQualified
    match ty.kind with
    | .Void => pure (Ty.Primitive .Void)
    | .Bool => pure (Ty.Primitive .C99Bool)
    | .CharS => pure (Ty.Primitive .Char)
    | .CharU => pure (Ty.Primitive .Char)
    | .SChar => pure (Ty.Primitive .SChar)
    | .UChar => pure (Ty.Primitive .UChar)
    | .Short => pure (Ty.Primitive .Short)
    | .UShort => pure (Ty.Primitive .UShort)
    | .Int => pure (Ty.Primitive .Int)
    | .UInt => pure (Ty.Primitive .UInt)
    | .Long => pure (Ty.Primitive .Long)
    | .ULong => pure (Ty.Primitive .ULong)
    | .LongLong => pure (Ty.Primitive .LongLong)
    | .ULongLong => pure (Ty.Primitive .ULongLong)
    | .Float => pure (Ty.Primitive .Float)
    | .Double => pure (Ty.Primitive .Double)
    | .Record => do
      let declaration ← expectSome ty.declaration "record declaration"
      let flds ← expectSome ty.structFields "struct fields"
      let fields ← flds.mapM (fun field => do
        let fieldTy ← expectSome field.entityType "struct field type"
        Ty.parse fuel fieldTy .Unspecified context)
      pure (Ty.Struct (ItemIdentifier.new declaration context) fields
        (is_bridged declaration context))
    | .Enum => do
      let declaration ← expectSome ty.declaration "enum declaration"
      let underlying ← expectSome declaration.enumUnderlyingType "enum underlying type"
      let underlying ← Ty.parse fuel underlying .Unspecified context
      pure (Ty.Enum (ItemIdentifier.new declaration context) underlying)
    | .ObjCId => do
      let parser := AttributeParser.new attributed_name "id"
      let (lt, parser) := parser.lifetime .Prefix
      let lifetime ← Lifetime.updateM lifetime lt
      let (c, parser) := parser.is_const .Suffix
      let is_const ← get_is_const c
      let (lt, parser) := parser.lifetime .Suffix
      let lifetime ← Lifetime.updateM lifetime lt
      let (_nullable_result, parser) := parser.nullable_result .Suffix
      let (nullability, parser) ←
        match unexposed_nullability with
        | some n => pure (n, parser)
        | none => do
          let (nb, parser) := parser.nullability .Suffix
          let n ← check_nullability attributed_ty nb
          pure (n, parser)
      emitLog parser.dropLog
      pure (Ty.Pointer nullability is_const lifetime (Ty.AnyObject []))
    | .ObjCClass => do
      let parser := AttributeParser.new attributed_name name
      let (lifetime, parser) := parser.lifetime .Suffix
      let (nb, parser) := parser.nullability .Suffix
      let nullability := ((unexposed_nullability.or nb).or ty.nullability).getD .Unspecified
      emitLog parser.dropLog
      pure (Ty.Pointer nullability true lifetime (Ty.AnyClass []))
    | .ObjCSel => do
      let parser := AttributeParser.new attributed_name name
      let (nullability, parser) ←
        match unexposed_nullability with
        | some n => pure (n, parser)
        | none => do
          let (nb, parser) := parser.nullability .Suffix
          let n ← check_nullability attributed_ty nb
          pure (n, parser)
      emitLog parser.dropLog
      pure (Ty.Sel nullability)
    | .ObjCInterface => do
      let declaration ← expectSome ty.declaration "ObjCInterface declaration"
      if !ty.objcTypeArguments.isEmpty then throw "generics not empty"
      if !ty.objcProtocolDeclarations.isEmpty then throw "protocols not empty"
      if name = "Protocol" then pure Ty.AnyProtocol
      else do
        let decl ← ItemRef.new declaration context
        if decl.id.name ≠ ((strDropPre? name "const ").getD name) then
          logError "invalid interface name"
        pure (Ty.Class decl [] [])
    | .ObjCObject => do
      let base_ty ← expectSome ty.objcObjectBaseType "object to have base type"
      let name := base_ty.displayName
      let generics ← ty.objcTypeArguments.mapM (fun param =>
        Ty.parse fuel param .Unspecified context)
      let protocols ← ty.objcProtocolDeclarations.mapM (fun entity => do
        let maybe_definition := entity.definition.getD entity
        let decl ← ItemRef.new maybe_definition context
        pure { decl with id := context.replace_protocol_name decl.id })
      match base_ty.kind with
      | .ObjCId => do
        if name ≠ "id" then throw "assertion failed: name == id"
        if !generics.isEmpty then throw "generics not empty"
        pure (Ty.AnyObject protocols)
      | .ObjCInterface => do
        let declaration ← expectSome base_ty.declaration "ObjCObject -> ObjCInterface declaration"
        let decl ← ItemRef.new declaration context
        if decl.id.name ≠ name then logError "ObjCObject -> ObjCInterface invalid name"
        if !generics.isEmpty && !protocols.isEmpty then
          throw "got object with both protocols and generics"
        if generics.isEmpty && protocols.isEmpty then
          throw "got object with empty protocols and generics"
        pure (Ty.Class decl generics protocols)
      | .ObjCClass => do
        if !generics.isEmpty then throw "ObjCClass with generics"
        pure (Ty.AnyClass protocols)
      | _ => throw "unknown ObjCObject kind"
    | .Pointer => do
      let parser := AttributeParser.new attributed_name name
      let pointee ← expectSome ty.pointeeType "pointer to have pointee"
      let parser ←
        match pointee.kind with
        | .FunctionPrototype | .FunctionNoPrototype => parser.set_fn_ptr
        | _ => pure parser
      let is_const := ty.isConstQualified || pointee.isConstQualified
      let (nullability, parser) ←
        match unexposed_nullability with
        | some n => pure (n, parser)
        | none => do
          let (nb, parser) := parser.nullability .Suffix
          let n ← check_nullability attributed_ty nb
          pure (n, parser)
      let pointeeTy ← Ty.parse fuel pointee .Unspecified context
      emitLog parser.dropLog
      pure (Ty.Pointer nullability is_const lifetime pointeeTy)
    | .BlockPointer => do
      let parser := AttributeParser.new attributed_name name
      let parser ← parser.set_fn_ptr
      let (c, parser) := parser.is_const .Suffix
      let is_const ← get_is_const c
      let (lt, parser) := parser.lifetime .Suffix
      let lifetime ← Lifetime.updateM lifetime lt
      let (nb, parser) := parser.nullability .Suffix
      let nullability ←
        match unexposed_nullability with
        | some n => pure n
        | none => check_nullability attributed_ty nb
      let pointee ← expectSome ty.pointeeType "pointer type to have pointee"
      let pointeeTy ← Ty.parse fuel pointee .Unspecified context
      emitLog parser.dropLog
      match pointeeTy with
      | Ty.Fn false fn_no_escape arguments result_type =>
        pure (Ty.Pointer nullability is_const lifetime
          (Ty.Block none fn_no_escape arguments result_type))
      | _ => throw "unexpected pointee in block"
    | .ObjCObjectPointer => do
      let parser := AttributeParser.new attributed_name name
      let (is_kindof, parser) := parser.is_kindof .Prefix
      let (c, parser) := parser.is_const .Suffix
      let is_const := c || ty.isConstQualified
      let (lt, parser) := parser.lifetime .Suffix
      let lifetime ← Lifetime.updateM lifetime lt
      let (_nullable_result, parser) := parser.nullable_result .Suffix
      let (nullability, parser) ←
        match unexposed_nullability with
        | some n => pure (n, parser)
        | none => do
          let (nb, parser) := parser.nullability .Suffix
          let n ← check_nullability attributed_ty nb
          pure (n, parser)
      let (lt, parser) := parser.lifetime .Suffix
      let lifetime ← Lifetime.updateM lifetime lt
      emitLog parser.dropLog
      let pointer_name := ty.displayName
      let pointee ← expectSome ty.pointeeType "pointer type to have pointee"
      let innerTy ← Ty.peelAttributed fuel pointee
      let attributed_name := pointee.displayName
      let name := innerTy.displayName
      let parser := AttributeParser.new attributed_name name
      let (k, parser) := parser.is_kindof .Prefix
      let _is_kindof := is_kindof || k
      let (pointee_is_const, parser) := parser.is_const .Suffix
      let (lt, parser) := parser.lifetime .Suffix
      let lifetime ← Lifetime.updateM lifetime lt
      let (new, parser) := parser.nullability .Suffix
      if new ≠ pointee.nullability then logError "failed parsing nullability"
      let nullability ← update_nullability nullability new
      let (lt, parser) := parser.lifetime .Suffix
      let lifetime ← Lifetime.updateM lifetime lt
      if !is_const && pointee_is_const then
        logWarn "pointee was const while ObjCObjectPointer was not"
      emitLog parser.dropLog
      let pointee_name := innerTy.displayName
      let parser := AttributeParser.new pointer_name pointee_name
      let (k, parser) := parser.is_kindof .Prefix
      let _is_kindof := k
      let (lt, parser) := parser.lifetime .Prefix
      let lifetime ← Lifetime.updateM lifetime lt
      let (lt, parser) := parser.lifetime .Suffix
      let lifetime ← Lifetime.updateM lifetime lt
      let (_c, parser) := parser.is_const .Suffix
      let parser ←
        if !(match pointee.objcObjectBaseType.map ClangType.kind with
            | some .ObjCId | some .ObjCClass => true
            | _ => false) then
          parser.set_inner_pointer
        else pure parser
      emitLog parser.dropLog
      let innerTy ←
        if innerTy.elaborated = some true then expectSome innerTy.elaboratedType "elaborated"
        else pure innerTy
      let pointeeTy ← Ty.parse fuel innerTy lifetime context
      pure (Ty.Pointer nullability is_const lifetime pointeeTy)
    | .Typedef => do
      let typedef_name ← expectSome ty.typedefName "typedef has name"
      let declaration ← expectSome ty.declaration "typedef declaration"
      let decl_name ← expectSome declaration.name "typedef declaration name"
      if typedef_name ≠ decl_name then
        throw "assertion failed: typedef_name == declaration name"
      let toClang ← expectSome declaration.typedefUnderlyingType "typedef underlying type"
      let parser := AttributeParser.new attributed_name typedef_name
      let (_is_kindof, parser) := parser.is_kindof .Prefix
      let (is_const1, parser) := parser.is_const .Prefix
      let (lt, parser) := parser.lifetime .Prefix
      let lifetime ← Lifetime.updateM lifetime lt
      let (is_const2, parser) := parser.is_const .Suffix
      let (lt, parser) := parser.lifetime .Suffix
      let lifetime ← Lifetime.updateM lifetime lt
      let (nullability, parser) ←
        match unexposed_nullability with
        | some n => pure (n, parser)
        | none => do
          let (nb, parser) := parser.nullability .Suffix
          let n ← check_nullability attributed_ty nb
          pure (n, parser)
      emitLog parser.dropLog
      let is_const ←
        if is_const1 || is_const2 then do
          if !attributed_ty.isConstQualified && !elaborated_ty.isConstQualified
              && !ty.isConstQualified then
            logWarn "typedef unnecessarily stripped const"
          pure true
        else do
          if ty.isConstQualified then logWarn "typedef was const but that could not be stripped"
          pure false
      match typedef_name with
      | "BOOL" => pure (Ty.Primitive .ObjcBool)
      | "IMP" => pure (Ty.Primitive .Imp)
      | "int8_t" => pure (Ty.Primitive .I8)
      | "__int8_t" => pure (Ty.Primitive .I8)
      | "uint8_t" => pure (Ty.Primitive .U8)
      | "__uint8_t" => pure (Ty.Primitive .U8)
      | "int16_t" => pure (Ty.Primitive .I16)
      | "__int16_t" => pure (Ty.Primitive .I16)
      | "uint16_t" => pure (Ty.Primitive .U16)
      | "__uint16_t" => pure (Ty.Primitive .U16)
      | "int32_t" => pure (Ty.Primitive .I32)
      | "__int32_t" => pure (Ty.Primitive .I32)
      | "uint32_t" => pure (Ty.Primitive .U32)
      | "__uint32_t" => pure (Ty.Primitive .U32)
      | "int64_t" => pure (Ty.Primitive .I64)
      | "__int64_t" => pure (Ty.Primitive .I64)
      | "uint64_t" => pure (Ty.Primitive .U64)
      | "__uint64_t" => pure (Ty.Primitive .U64)
      | "ssize_t" => pure (Ty.Primitive .ISize)
      | "size_t" => pure (Ty.Primitive .USize)
      | "ptrdiff_t" => pure (Ty.Primitive .PtrDiff)
      | "intptr_t" => pure (Ty.Primitive .ISize)
      | "uintptr_t" => pure (Ty.Primitive .USize)
      | "__builtin_va_list" => pure (Ty.Primitive .VaList)
      | "UInt8" => pure (Ty.Primitive .U8)
      | "UInt16" => pure (Ty.Primitive .U16)
      | "UInt32" => pure (Ty.Primitive .U32)
      | "UInt64" => pure (Ty.Primitive .U64)
      | "SInt8" => pure (Ty.Primitive .I8)
      | "SInt16" => pure (Ty.Primitive .I16)
      | "SInt32" => pure (Ty.Primitive .I32)
      | "SInt64" => pure (Ty.Primitive .I64)
      | "Float32" => pure (Ty.Primitive .F32)
      | "Float64" => pure (Ty.Primitive .F64)
      | "Float80" => throw "can't handle 80 bit MacOS float"
      | "Float96" => throw "can't handle 96 bit 68881 float"
      | "dispatch_qos_class_t" =>
        pure (Ty.TypeDef (ItemIdentifier.new declaration context) nullability lifetime
          (Ty.Primitive .Int) false)
      | "NSInteger" => pure (Ty.Primitive .NSInteger)
      | "NSUInteger" => pure (Ty.Primitive .NSUInteger)
      | "instancetype" => pure (Ty.Pointer nullability is_const lifetime Ty.Self_)
      | _ => do
        if declaration.kind = .TemplateTypeParameter then
          pure (Ty.Pointer nullability is_const lifetime (Ty.GenericParam typedef_name))
        else do
          let toTy ← Ty.parse fuel toClang .Unspecified context
          let id := ItemIdentifier.new declaration context
          let is_cf := toTy.is_inner_cf_type id.name (is_bridged declaration context)
          let id := context.replace_typedef_name id is_cf
          pure (Ty.TypeDef id nullability lifetime toTy is_cf)
    | .FunctionPrototype | .FunctionNoPrototype => do
      let call_conv ← expectSome ty.callingConvention "fn calling convention"
      if call_conv ≠ .Cdecl then throw "fn calling convention is C"
      let args ← expectSome ty.argumentTypes "fn type to have argument types"
      let arguments ← args.mapM (fun argTy => Ty.parse fuel argTy .Unspecified context)
      let result_type ← expectSome ty.resultType "fn type to have result type"
      let result_type ← Ty.parse fuel result_type .Unspecified context
      pure (Ty.Fn (ty.kind = .FunctionPrototype && ty.isVariadic) no_escape arguments result_type)
    | .IncompleteArray => do
      let parser := AttributeParser.new attributed_name name
      let parser ← parser.set_incomplete_array
      let (c, parser) := parser.is_const .Suffix
      let is_const ← get_is_const c
      let (lt, parser) := parser.lifetime .Suffix
      let lifetime ← Lifetime.updateM lifetime lt
      let (nullability, parser) ←
        match unexposed_nullability with
        | some n => pure (n, parser)
        | none => do
          let (nb, parser) := parser.nullability .Suffix
          let n ← check_nullability attributed_ty nb
          pure (n, parser)
      let element ← expectSome ty.elementType "incomplete array to have element type"
      let pointee ← Ty.parse fuel element lifetime context
      emitLog parser.dropLog
      pure (Ty.IncompleteArray nullability is_const pointee)
    | .ConstantArray => do
      let parser := AttributeParser.new attributed_name name
      let parser ← parser.set_constant_array
      let (c, parser) := parser.is_const .Suffix
      let _is_const ← get_is_const c
      let (_nullability, parser) ←
        match unexposed_nullability with
        | some n => pure (n, parser)
        | none => do
          let (nb, parser) := parser.nullability .Suffix
          let n ← check_nullability attributed_ty nb
          pure (n, parser)
      let element ← expectSome ty.elementType "array to have element type"
      let element_type ← Ty.parse fuel element lifetime context
      let num_elements ← expectSome ty.size "constant array to have element length"
      emitLog parser.dropLog
      pure (Ty.Array element_type num_elements)
    | _ => do
      logError "unknown type kind"
      pure (Ty.GenericParam "Unknown")

/-- `Ty::inner_typedef_is_object_like`: whether the target of a typedef
is object-like, looking through at most one pointer level. -/
def Ty.inner_typedef_is_object_like (self : Ty) (in_pointer : Bool) : Bool :=
  match self with
  | .Class _ _ _ => true
  | .GenericParam _ => true
  | .AnyObject _ => true
  | .AnyProtocol => true
  | .AnyClass _ => true
  | .Self_ => true
  | .Pointer _ _ _ pointee =>
    if !in_pointer then pointee.inner_typedef_is_object_like true else false
  | .TypeDef _ _ _ toTy _ => toTy.inner_typedef_is_object_like in_pointer
  | _ => false

/-- `Ty::is_static_object`: `AnyClass` (possibly behind typedefs) is kept
alive by the runtime and may be returned as `&'static T`. -/
def Ty.is_static_object (self : Ty) : Bool :=
  match self with
  | .AnyClass _ => true
  | .TypeDef _ _ _ toTy _ => toTy.is_static_object
  | _ => false

/-- `Ty::is_object_like`: classes, generic parameters, `id`, protocol and
class objects, `Self`, and typedefs whose target is such a type. -/
def Ty.is_object_like (self : Ty) : Bool :=
  match self with
  | .Class _ _ _ => true
  | .GenericParam _ => true
  | .AnyObject _ => true
  | .AnyProtocol => true
  | .AnyClass _ => true
  | .Self_ => true
  | .TypeDef _ _ _ toTy _ => toTy.inner_typedef_is_object_like false
  | _ => false

/-- Whether `Self_` occurs anywhere inside a type. -/
def Ty.contains_self (self : Ty) : Bool :=
  match self with
  | .Primitive _ => false
  | .Class _ generics _ => generics.attach.any (fun x => x.1.contains_self)
  | .GenericParam _ => false
  | .AnyObject _ => false
  | .AnyProtocol => false
  | .AnyClass _ => false
  | .Self_ => true
  | .Sel _ => false
  | .Pointer _ _ _ pointee => pointee.contains_self
  | .TypeDef _ _ _ toTy _ => toTy.contains_self
  | .IncompleteArray _ _ pointee => pointee.contains_self
  | .Array element_type _ => element_type.contains_self
  | .RustArray element_type _ => element_type.contains_self
  | .Enum _ ty => ty.contains_self
  | .Struct _ fields _ => fields.attach.any (fun x => x.1.contains_self)
  | .Fn _ _ arguments result_type =>
    arguments.attach.any (fun x => x.1.contains_self) || result_type.contains_self
  | .Block _ _ arguments result_type =>
    arguments.attach.any (fun x => x.1.contains_self) || result_type.contains_self
termination_by sizeOf self
decreasing_by
  all_goals simp_wf
  all_goals (try have h := List.sizeOf_lt_of_mem x.2)
  all_goals omega

mutual

/-- The `plain` emission position: raw type spelling, ignoring retain
semantics.  `fuel` bounds the recursion of the embedding; a `"<fuel>"`
marker is produced on exhaustion.  The `error!` diagnostics emitted by
the renderers are not modelled (they do not affect the output). -/
def Ty.plain (fuel : Nat) (self : Ty) : String :=
  match fuel with
  | 0 => "<fuel>"
  | fuel + 1 =>
    match self with
    | .Primitive prim => prim.as_str
    | .Sel nullability => if nullability = .NonNull then "Sel" else "Option<Sel>"
    | .Pointer nullability is_const _lifetime pointee =>
      match pointee with
      | .Fn is_variadic _no_escape arguments result_type =>
        (if nullability ≠ .NonNull then "Option<" else "")
          ++ "unsafe extern \"C-unwind\" fn("
          ++ arguments.foldl (fun acc arg => acc ++ Ty.plain fuel arg ++ ",") ""
          ++ (if is_variadic then "..." else "")
          ++ ")"
          ++ Ty.fn_return fuel result_type
          ++ (if nullability ≠ .NonNull then ">" else "")
      | pointee =>
        if nullability = .NonNull then "NonNull<" ++ Ty.behind_pointer fuel pointee ++ ">"
        else if is_const then "*const " ++ Ty.behind_pointer fuel pointee
        else "*mut " ++ Ty.behind_pointer fuel pointee
    | .TypeDef id nullability lifetime toTy is_cf =>
      if (Ty.TypeDef id nullability lifetime toTy is_cf).is_object_like || is_cf then
        if nullability = .NonNull then "NonNull<" ++ id.path ++ ">" else "*mut " ++ id.path
      else id.path
    | .IncompleteArray nullability is_const pointee =>
      if nullability = .NonNull then "NonNull<" ++ Ty.behind_pointer fuel pointee ++ ">"
      else if is_const then "*const " ++ Ty.behind_pointer fuel pointee
      else "*mut " ++ Ty.behind_pointer fuel pointee
    | .Array element_type num_elements =>
      "ArrayUnknownABI<[" ++ Ty.plain fuel element_type ++ "; " ++ Nat.repr num_elements ++ "]>"
    | .RustArray element_type num_elements =>
      "[" ++ Ty.plain fuel element_type ++ "; " ++ Nat.repr num_elements ++ "]"
    | .Struct id _ _ => id.path
    | .Enum id _ => id.path
    | self => Ty.behind_pointer fuel self

/-- The `behind_pointer` emission position: how the pointee of a
reference/pointer appears; expands class generics and protocol objects. -/
def Ty.behind_pointer (fuel : Nat) (self : Ty) : String :=
  match fuel with
  | 0 => "<fuel>"
  | fuel + 1 =>
    match self with
    | .Class decl generics _protocols =>
      decl.id.path
        ++ (if generics.isEmpty then ""
            else
              "<"
                ++ generics.foldl (fun acc generic =>
                  acc
                    ++ (match generic with
                      | .Pointer nb c lt pointee =>
                        if pointee.is_object_like then Ty.behind_pointer fuel pointee ++ ","
                        else Ty.behind_pointer fuel (Ty.Pointer nb c lt pointee) ++ ","
                      | .TypeDef id nb lt toTy is_cf =>
                        if (Ty.TypeDef id nb lt toTy is_cf).is_object_like || is_cf then
                          id.path ++ ","
                        else Ty.behind_pointer fuel (Ty.TypeDef id nb lt toTy is_cf) ++ ","
                      | generic => Ty.behind_pointer fuel generic ++ ",")) ""
                ++ ">")
    | .GenericParam name => name
    | .AnyObject protocols =>
      match protocols with
      | [] => "AnyObject"
      | [decl] => "ProtocolObject<dyn " ++ decl.id.path ++ ">"
      | first :: rest =>
        "AnyObject /* " ++ first.id.path
          ++ rest.foldl (fun acc protocol => acc ++ "+ " ++ protocol.id.path) ""
          ++ " */"
    | .AnyProtocol => "AnyProtocol"
    | .AnyClass _ => "AnyClass"
    | .Self_ => "Self"
    | .TypeDef id nullability _ _ is_cf =>
      if is_cf then
        if nullability = .NonNull then "NonNull<" ++ id.path ++ ">" else "*mut " ++ id.path
      else id.path
    | .Fn _ _ _ _ => "core::ffi::c_void /* TODO: Should be a function. */"
    | .Block _sendable no_escape arguments result_type =>
      "block2::Block<dyn Fn("
        ++ arguments.foldl (fun acc arg => acc ++ Ty.plain fuel arg ++ ", ") ""
        ++ ")"
        ++ Ty.fn_return fuel result_type
        ++ (if no_escape then " + \x27_" else "")
        ++ ">"
    | self => Ty.plain fuel self

/-- The `fn_return` emission position: C function returns; pointers to
static objects render as `&'static T`, void renders as nothing. -/
def Ty.fn_return (fuel : Nat) (self : Ty) : String :=
  match fuel with
  | 0 => "<fuel>"
  | fuel + 1 =>
    match self with
    | .Primitive .Void => ""
    | _ =>
      match self with
      | .Pointer nullability _ _ pointee =>
        if pointee.is_static_object then
          if nullability = .NonNull then " -> &\x27static " ++ Ty.behind_pointer fuel pointee
          else " -> Option<&\x27static " ++ Ty.behind_pointer fuel pointee ++ ">"
        else " -> " ++ Ty.plain fuel self
      | _ => " -> " ++ Ty.plain fuel self

/-- The `method_return` emission position: object-like or CF types with
unspecified lifetime become retained handles (`Retained<T>`, optional
unless `NonNull`); both boolean primitives become the native `bool`.
The `warn!` on `C99Bool` is not modelled (output only). -/
def Ty.method_return (fuel : Nat) (self : Ty) : String :=
  match fuel with
  | 0 => "<fuel>"
  | fuel + 1 =>
    match self with
    | .Pointer nullability _is_const .Unspecified pointee =>
      if pointee.is_object_like && !pointee.is_static_object then
        if nullability = .NonNull then " -> Retained<" ++ Ty.behind_pointer fuel pointee ++ ">"
        else " -> Option<Retained<" ++ Ty.behind_pointer fuel pointee ++ ">>"
      else Ty.fn_return fuel self
    | .TypeDef id nullability lifetime toTy is_cf =>
      if ((Ty.TypeDef id nullability lifetime toTy is_cf).is_object_like || is_cf)
          && !(Ty.TypeDef id nullability lifetime toTy is_cf).is_static_object then
        if nullability = .NonNull then " -> Retained<" ++ id.path ++ ">"
        else " -> Option<Retained<" ++ id.path ++ ">>"
      else Ty.fn_return fuel self
    | .Primitive .C99Bool => " -> bool"
    | .Primitive .ObjcBool => " -> bool"
    | _ => Ty.fn_return fuel self

end

/-- `Ty::try_fix_related_result_type`: rewrite the pointee of an `id`
return to `Self_`; `id<...>` (with protocols) is only warned about and
left unchanged; calling this on a non-pointer type panics. -/
def Ty.try_fix_related_result_type (self : Ty) : PM Ty :=
  match self with
  | .Pointer nullability is_const lifetime pointee =>
    match pointee with
    | .AnyObject protocols =>
      if !protocols.isEmpty then do
        logWarn "related result type with protocols"
        pure (Ty.Pointer nullability is_const lifetime (Ty.AnyObject protocols))
      else
        pure (Ty.Pointer nullability is_const lifetime Ty.Self_)
    | pointee => pure (Ty.Pointer nullability is_const lifetime pointee)
  | _ => throw "tried to fix related result type on non-id type"

/-- `Ty::fix_fn_first_argument_cf_nullability`: upgrade the nullability
of a CF-typedef argument from `Unspecified` to `NonNull` when the
function name contains the type name minus any trailing `Ref`, except
for the hand-blocked `CFAllocator` and `ODSession`. -/
def Ty.fix_fn_first_argument_cf_nullability (self : Ty) (fn_name : String) : Ty :=
  match self with
  | .TypeDef id .Unspecified lifetime toTy true =>
    let type_name := (strDropSuf? id.name "Ref").getD id.name
    if strContains fn_name type_name
        && !(type_name = "ODSession" || type_name = "CFAllocator") then
      Ty.TypeDef id .NonNull lifetime toTy true
    else
      Ty.TypeDef id .Unspecified lifetime toTy true
  | self => self

/-- The condition under which `fix_fn_first_argument_cf_nullability`
changes its argument: a CF typedef with unspecified nullability whose
name minus a trailing `Ref` occurs in the function name and is not one
of the hand-blocked names. -/
def cf_fix_applies (fn_name : String) (self : Ty) : Bool :=
  match self with
  | .TypeDef id .Unspecified _ _ true =>
    let type_name := (strDropSuf? id.name "Ref").getD id.name
    strContains fn_name type_name && !(type_name = "ODSession" || type_name = "CFAllocator")
  | _ => false

/-- Modelled from the spec (§4.7, P4): the related-result selector
family — prefixes `init`/`new`/`alloc`/`copy`/`mutableCopy`, exact
`self`/`autorelease`/`retain` (the method-family computation lives in
the missing `stmt.rs`). -/
def selector_in_related_result_family (sel : String) : Bool :=
  (strDropPre? sel "init").isSome || (strDropPre? sel "new").isSome
    || (strDropPre? sel "alloc").isSome || (strDropPre? sel "mutableCopy").isSome
    || (strDropPre? sel "copy").isSome
    || sel = "self" || sel = "autorelease" || sel = "retain"

/-- Modelled from the spec (§4.7 step 1): global analysis applies
`try_fix_related_result_type` to every method whose selector is in the
related-result family and whose return type is `id` (a pointer to
`AnyObject`); the dispatching pass itself is not among the sources. -/
def global_analysis_related_result (sel : String) (ret : Ty) : PM Ty :=
  if selector_in_related_result_family sel
      && (match ret with
        | .Pointer _ _ _ (.AnyObject _) => true
        | _ => false) then
    ret.try_fix_related_result_type
  else
    pure ret

/-- SDK platforms (from `main.rs` / the `apple-sdk` crate). -/
inductive Platform where
  | MacOsX
  | IPhoneOs
  | AppleTvOs
  | WatchOs
  | XrOs
  | OtherPlatform
deriving DecidableEq, Repr

/-- The per-platform availability keys of a library's
`translation-config.toml` used by `parse_library` (presence signals
support on that platform). -/
structure LibraryConfig where
  macos : Option String := none
  ios : Option String := none
  maccatalyst : Option String := none
  tvos : Option String := none
  watchos : Option String := none
  visionos : Option String := none
deriving DecidableEq, Repr

/-- The SDK-preference predicate of `parse_library` (the closure passed
to `sdks.iter().find`): the first configured platform key decides which
SDK platform is looked for; a configuration with no platform key at all
panics. -/
def sdkWanted (data : LibraryConfig) (platform : Platform) : Except String Bool :=
  if data.macos.isSome then .ok (platform = .MacOsX)
  else if data.ios.isSome then .ok (platform = .IPhoneOs)
  else if data.maccatalyst.isSome then .ok (platform = .MacOsX)
  else if data.tvos.isSome then .ok (platform = .AppleTvOs)
  else if data.watchos.isSome then .ok (platform = .WatchOs)
  else if data.visionos.isSome then .ok (platform = .XrOs)
  else .error "no supported SDK"

/-- `sdks.iter().find(...)`: the first SDK whose platform is wanted. -/
def findSdk (data : LibraryConfig) : List Platform → Except String (Option Platform)
  | [] => .ok none
  | p :: rest => do
    if ← sdkWanted data p then pure (some p) else findSdk data rest

/-- The per-platform LLVM-triple table of `parse_library` (the commented
out triples of the source are omitted, as there): macOS SDK yields either
the macOS triple or, for Mac-Catalyst-only libraries, the `macabi`
triple. -/
def llvm_targets (platform : Platform) (data : LibraryConfig) : Except String (List String) :=
  match platform with
  | .MacOsX =>
    .ok (if data.macos.isSome then ["arm64-apple-macosx10.12.0"]
      else ["arm64-apple-ios13.1.0-macabi"])
  | .IPhoneOs => .ok ["arm64-apple-ios10.0.0"]
  | .AppleTvOs => .ok ["arm64-apple-tvos"]
  | .WatchOs => .ok ["arm64-apple-watchos"]
  | .XrOs => .ok ["arm64-apple-xros"]
  | .OtherPlatform => .error "unimplemented SDK platform"

/-- The LLVM triples `parse_library` will iterate for a library:
preferred SDK selection followed by the triple table. -/
def chosenTargets (data : LibraryConfig) (sdks : List Platform) : Except String (List String) := do
  let sdk? ← findSdk data sdks
  let sdk ← match sdk? with
    | some s => pure s
    | none => .error "find SDK"
  llvm_targets sdk data

/-- The per-triple loop of `parse_library`: `result` records the first
triple's library; every subsequent triple's library is `assert_eq!`-ed
against it (inequality is fatal); an empty triple list panics on the
final `unwrap`.  `parseFn` abstracts constructing a fresh `Context`,
parsing the translation unit and running global analysis for one
triple. -/
def parseLoop {Lib : Type} [DecidableEq Lib] (parseFn : String → Lib) :
    Option Lib → List String → Except String Lib
  | none, [] => .error "called unwrap on None"
  | some r, [] => .ok r
  | none, t :: ts => parseLoop parseFn (some (parseFn t)) ts
  | some r, t :: ts =>
    if parseFn t = r then parseLoop parseFn (some r) ts
    else .error "assertion failed: prev_result == library"

/-- `parse_library` from `main.rs`: select the preferred SDK, compute its
LLVM triples, parse once per triple and require all results equal. -/
def parse_library {Lib : Type} [DecidableEq Lib] (parseFn : String → Lib)
    (data : LibraryConfig) (sdks : List Platform) : Except String Lib := do
  let targets ← chosenTargets data sdks
  parseLoop parseFn none targets

/-! Concrete inputs used by the claim theorems. -/

/-- The element type `const char` (Clang kind `CharS`, const-qualified). -/
def charClangTy : ClangType := .mk {
  kind := .CharS
  displayName := "const char"
  isConstQualified := true
}

/-- The element type `const char *`: a non-const pointer to const char. -/
def constCharPtrClangTy : ClangType := .mk {
  kind := .Pointer
  displayName := "const char *"
  pointeeType := some charClangTy
}

/-- An incomplete array whose canonical display name is the claim's
`"const char *[]"`. -/
def c5CanonicalArr : ClangType := .mk {
  kind := .IncompleteArray
  displayName := "const char *[]"
  elementType := some constCharPtrClangTy
}

/-- The attributed incomplete-array type of the doubled-nullability
scenario, with canonical spelling `"const char *[]"` exactly as the
claim states. -/
def c5Input : ClangType := .mk {
  kind := .Attributed
  displayName := "const char * _Nonnull  _Nonnull[]"
  nullability := some .NonNull
  modifiedType := some c5CanonicalArr
}

/-- The attributed element type `const char * _Nonnull` (the nullability
shows up once in the canonical element spelling). -/
def c5ElemAttributed : ClangType := .mk {
  kind := .Attributed
  displayName := "const char * _Nonnull"
  nullability := some .NonNull
  modifiedType := some constCharPtrClangTy
}

/-- An incomplete array whose canonical display name retains the
element's `_Nonnull` (as Clang prints it): `"const char * _Nonnull[]"`. -/
def c5CanonicalArrB : ClangType := .mk {
  kind := .IncompleteArray
  displayName := "const char * _Nonnull[]"
  elementType := some c5ElemAttributed
}

/-- The doubled-nullability input against the canonical spelling
`"const char * _Nonnull[]"`, where the double-appearance rule applies. -/
def c5InputB : ClangType := .mk {
  kind := .Attributed
  displayName := "const char * _Nonnull  _Nonnull[]"
  nullability := some .NonNull
  modifiedType := some c5CanonicalArrB
}

/-- The declaration of the `Float80` typedef (MacTypes.h). -/
def float80Decl : ClangEntity := .mk {
  kind := .TypedefDecl
  name := some "Float80"
  typedefUnderlyingType := some (.mk { kind := .Double, displayName := "long double" })
}

/-- A `Float80` typedef type: `Ty::parse` panics on it. -/
def float80Input : ClangType := .mk {
  kind := .Typedef
  displayName := "Float80"
  typedefName := some "Float80"
  declaration := some float80Decl
}

/-- An `id` type whose attributed spelling carries a stray token, so the
attribute parser's residue differs from the canonical `id`. -/
def c4Input : ClangType := .mk {
  kind := .ObjCId
  displayName := "__strong id extra"
}

/-- An ext-vector display name where another attribute precedes the
`ext_vector_type` attribute, so the regex captures an unsupported
primitive spelling and extraction fails. -/
def c9Bad : ClangType := .mk {
  kind := .ExtVector
  displayName := "int __attribute__((aligned(16))) __attribute__((ext_vector_type(3)))"
}

/-- A plain `int` type carrying the claim's ext-vector spelling. -/
def c9Good : ClangType := .mk {
  kind := .Int
  displayName := "int __attribute__((ext_vector_type(4)))"
}

/-- A reference to an `NSString` class declaration. -/
def clsNSString : Ty :=
  Ty.Class
    { id := { name := "NSString" }
      thread_safety := ThreadSafety.dummy
      required_items := [] }
    [] []

/-- An object-like typedef whose target is a static object (`AnyClass`,
e.g. a typedef of `Class<P>`): excluded from the retained-handle return. -/
def c6StaticTypedef : Ty :=
  Ty.TypeDef { name := "X" } .Unspecified .Unspecified (Ty.AnyClass []) false

/-- The `CFStringRef` argument type of `CFStringCreateCopy` (a CF typedef
with unspecified nullability). -/
def cfStringRef : Ty :=
  Ty.TypeDef { name := "CFStringRef" } .Unspecified .Unspecified
    (Ty.Pointer .Unspecified false .Unspecified (Ty.Struct { name := "__CFString" } [] true)) true

/-- The `CFAllocatorRef` argument type of `CFStringCreateCopy`. -/
def cfAllocatorRef : Ty :=
  Ty.TypeDef { name := "CFAllocatorRef" } .Unspecified .Unspecified
    (Ty.Pointer .Unspecified false .Unspecified (Ty.Struct { name := "__CFAllocator" } [] true))
    true

/-- A protocol reference (`NSCopying`). -/
def protoNSCopying : ItemRef :=
  { id := { name := "NSCopying" }, thread_safety := ThreadSafety.dummy, required_items := [] }

/-- An `id<NSCopying>` method return: a pointer to `AnyObject` with a
nonempty protocol list. -/
def c8ProtocolReturn : Ty :=
  Ty.Pointer .Unspecified false .Unspecified (Ty.AnyObject [protoNSCopying])

/-- A library configured for both macOS and iOS. -/
def c1DataBoth : LibraryConfig := { macos := some "10.12", ios := some "10.0" }

/-- All SDK platforms available. -/
def c1SdksAll : List Platform := [.MacOsX, .IPhoneOs, .AppleTvOs, .WatchOs, .XrOs]

/-- An attribute parser whose residue already equals the canonical name. -/
def c10Parser : AttributeParser := AttributeParser.new "id" "id"

/-- An attribute parser with a nullability token still to strip. -/
def c10ParserB : AttributeParser := AttributeParser.new "id _Nonnull" "id"

/-- A type of a kind the translator does not handle (`Half`), with the
given display name, nullability and constness. -/
def unknownKindInput (dn : String) (nb : Option Nullability) (cq : Bool) : ClangType := .mk {
  kind := .Half
  displayName := dn
  nullability := nb
  isConstQualified := cq
}

/-! Helper lemmas. -/

theorem dropPre?_length {s needle rest : List Char} (h : dropPre? s needle = some rest) :
    s.length = needle.length + rest.length := by
  induction needle generalizing s with
  | nil =>
    simp only [dropPre?, Option.some.injEq] at h
    subst h
    simp
  | cons d ds ih =>
    cases s with
    | nil => simp [dropPre?] at h
    | cons c s' =>
      by_cases hc : c = d
      · rw [dropPre?, if_pos hc] at h
        have := ih h
        simp only [List.length_cons]
        omega
      · rw [dropPre?, if_neg hc] at h
        cases h

theorem dropSuf?_length {s needle rest : List Char} (h : dropSuf? s needle = some rest) :
    s.length = needle.length + rest.length := by
  unfold dropSuf? at h
  cases h' : dropPre? s.reverse needle.reverse with
  | none => rw [h'] at h; cases h
  | some r =>
    rw [h'] at h
    simp only [Option.map_some', Option.some.injEq] at h
    have hl := dropPre?_length h'
    simp only [List.length_reverse] at hl
    subst h
    simp only [List.length_reverse]
    omega

theorem dropWhile_length_le (p : Char → Bool) (l : List Char) :
    (l.dropWhile p).length ≤ l.length := by
  induction l with
  | nil => simp
  | cons c l ih =>
    by_cases h : p c
    · simp only [List.dropWhile, h]
      simp only [List.length_cons]
      omega
    · simp [List.dropWhile, h]

theorem trimChars_length_le (l : List Char) : (trimChars l).length ≤ l.length := by
  have h1 := dropWhile_length_le Char.isWhitespace l
  have h2 := dropWhile_length_le Char.isWhitespace (trimLeft l).reverse
  simp only [trimChars, trimLeft, List.length_reverse] at *
  omega

theorem strTrim_length_le (s : String) : (strTrim s).length ≤ s.length :=
  trimChars_length_le s.data

theorem strDropPre?_length {s needle rest : String} (h : strDropPre? s needle = some rest) :
    s.length = needle.length + rest.length := by
  unfold strDropPre? at h
  cases h' : dropPre? s.toList needle.toList with
  | none => rw [h'] at h; cases h
  | some r =>
    rw [h'] at h
    simp only [Option.map_some', Option.some.injEq] at h
    have hl := dropPre?_length h'
    subst h
    exact hl

theorem strDropSuf?_length {s needle rest : String} (h : strDropSuf? s needle = some rest) :
    s.length = needle.length + rest.length := by
  unfold strDropSuf? at h
  cases h' : dropSuf? s.toList needle.toList with
  | none => rw [h'] at h; cases h
  | some r =>
    rw [h'] at h
    simp only [Option.map_some', Option.some.injEq] at h
    have hl := dropSuf?_length h'
    subst h
    exact hl

theorem strip_length {pos : ParsePosition} {s needle rest : String}
    (h : pos.strip s needle = some rest) : s.length = needle.length + rest.length := by
  cases pos with
  | Suffix => exact strDropSuf?_length h
  | Prefix => exact strDropPre?_length h

/-! Claim theorems. -/

/-- C3 counterexample: the claim demands that every reassignment with
`old ≠ Unspecified` and `new ≠ Unspecified` logs an error, but
`Lifetime::update` silently accepts the `Strong → Strong` reassignment:
it leaves the cell at `Strong` and logs nothing. -/
theorem c3_counterexample :
    Lifetime.update .Strong .Strong = (.Strong, false) ∧
    Lifetime.Strong ≠ Lifetime.Unspecified := by
  decide

/-- C3 (amended): `Lifetime::update` leaves the cell unchanged without an
error when the new value is `Unspecified`; sets the cell when the old
value is `Unspecified` and the new one is not; silently leaves the cell
unchanged for the `Strong → Strong` reassignment; and for every other
reassignment with both values specified logs an error and leaves the
cell unchanged. -/
theorem c3_lifetime_update :
    ∀ old new : Lifetime,
      (new = .Unspecified → Lifetime.update old new = (old, false)) ∧
      (old = .Unspecified → new ≠ .Unspecified → Lifetime.update old new = (new, false)) ∧
      (old = .Strong → new = .Strong → Lifetime.update old new = (old, false)) ∧
      (old ≠ .Unspecified → new ≠ .Unspecified → ¬(old = .Strong ∧ new = .Strong) →
        Lifetime.update old new = (old, true)) := by
  intro old new
  cases old <;> cases new <;> exact ⟨by decide, by decide, by decide, by decide⟩

/-- C3 witness: the amended update law evaluated at concrete lifetimes. -/
theorem c3_witness :
    Lifetime.update .Unspecified .Weak = (.Weak, false) ∧
    Lifetime.update .Weak .Unretained = (.Weak, true) := by
  refine ⟨(c3_lifetime_update .Unspecified .Weak).2.1 rfl (by decide), ?_⟩
  exact (c3_lifetime_update .Weak .Unretained).2.2.2 (by decide) (by decide) (by decide)

/-- C10 counterexample: the claim says a successful strip strictly
shrinks the attributed name, but stripping the empty needle succeeds
and leaves the parser (hence the name) completely unchanged. -/
theorem c10_counterexample :
    (c10Parser.strip "" .Suffix).1 = true ∧ (c10Parser.strip "" .Suffix).2 = c10Parser := by
  decide

/-- C10 (amended): for every nonempty needle and position, `strip` never
modifies the stored expected name; when it returns `false` the parser is
exactly as before; and a successful strip strictly shrinks the
attributed name.  (With the empty needle, `strip` returns `true` without
changing anything.) -/
theorem c10_strip_frame (p : AttributeParser) (needle : String) (pos : ParsePosition)
    (hne : 0 < needle.length) :
    ((p.strip needle pos).2.expected_name = p.expected_name) ∧
    ((p.strip needle pos).1 = false → (p.strip needle pos).2 = p) ∧
    ((p.strip needle pos).1 = true → (p.strip needle pos).2.name.length < p.name.length) := by
  cases h1 : pos.strip p.name needle with
  | none =>
    have hres : p.strip needle pos = (false, p) := by
      unfold AttributeParser.strip
      simp only [h1]
    rw [hres]
    exact ⟨rfl, fun _ => rfl, by simp⟩
  | some rest =>
    have hlen := strip_length h1
    have htrim := strTrim_length_le rest
    have hcase : p.strip needle pos = (false, p) ∨
        p.strip needle pos = (true, { p with name := strTrim rest }) := by
      unfold AttributeParser.strip
      simp only [h1]
      by_cases h2 : (pos.strip p.expected_name needle).isSome
      · by_cases h3 : (pos.strip (strTrim rest) needle).isSome
        · right
          simp [h2, h3]
        · left
          simp [h2, h3]
      · right
        simp [h2]
    rcases hcase with hres | hres <;> rw [hres]
    · exact ⟨rfl, fun _ => rfl, by simp⟩
    · refine ⟨rfl, by simp, fun _ => ?_⟩
      show (strTrim rest).length < p.name.length
      omega

/-- C10 witness: the frame/shrink law applied to stripping `_Nonnull`
off `"id _Nonnull"` against canonical `"id"`. -/
theorem c10_witness :
    ((c10ParserB.strip "_Nonnull" .Suffix).2.expected_name = c10ParserB.expected_name) ∧
    ((c10ParserB.strip "_Nonnull" .Suffix).1 = false →
      (c10ParserB.strip "_Nonnull" .Suffix).2 = c10ParserB) ∧
    ((c10ParserB.strip "_Nonnull" .Suffix).1 = true →
      (c10ParserB.strip "_Nonnull" .Suffix).2.name.length < c10ParserB.name.length) :=
  c10_strip_frame c10ParserB "_Nonnull" .Suffix (by decide)

/-- C4: at scope exit the attribute parser logs an error if and only if
the residual attributed name differs from the expected canonical name,
and such a mismatch is not fatal: a parse whose parser ends with residue
`"id extra"` against canonical `"id"` still returns a translated type
(together with the logged mismatch), rather than aborting. -/
theorem c4_drop_invariant :
    (∀ p : AttributeParser, p.dropLog ≠ [] ↔ p.name ≠ p.expected_name) ∧
    runPM (Ty.parse 2 c4Input .Unspecified {}) =
      .ok (Ty.Pointer .Unspecified false .Strong (Ty.AnyObject []),
        [LogEvent.errorEvent "could not extract all attributes"]) := by
  constructor
  · intro p
    unfold AttributeParser.dropLog
    by_cases h : p.name = p.expected_name <;> simp [h]
  · rfl

/-- C7: `fix_fn_first_argument_cf_nullability` changes its argument if
and only if it is a CF typedef with `Unspecified` nullability whose name
minus a trailing `Ref` occurs in the function name and is neither
`CFAllocator` nor `ODSession`; when it changes the argument it changes
exactly the nullability, to `NonNull`.  For `CFStringCreateCopy`, the
`CFStringRef` argument becomes `NonNull` while `CFAllocatorRef` stays
`Unspecified`. -/
theorem c7_cf_nullability_fix :
    (∀ (fn_name : String) (ty : Ty),
      ty.fix_fn_first_argument_cf_nullability fn_name ≠ ty ↔
        cf_fix_applies fn_name ty = true) ∧
    (∀ (fn_name : String) (id : ItemIdentifier) (lt : Lifetime) (toTy : Ty),
      cf_fix_applies fn_name (Ty.TypeDef id .Unspecified lt toTy true) = true →
      (Ty.TypeDef id .Unspecified lt toTy true).fix_fn_first_argument_cf_nullability fn_name =
        Ty.TypeDef id .NonNull lt toTy true) ∧
    cfStringRef.fix_fn_first_argument_cf_nullability "CFStringCreateCopy" =
      Ty.TypeDef { name := "CFStringRef" } .NonNull .Unspecified
        (Ty.Pointer .Unspecified false .Unspecified (Ty.Struct { name := "__CFString" } [] true))
        true ∧
    cfAllocatorRef.fix_fn_first_argument_cf_nullability "CFStringCreateCopy" = cfAllocatorRef := by
  refine ⟨?_, ?_, by rfl, by rfl⟩
  · intro fn_name ty
    cases ty with
    | TypeDef id nb lt toTy is_cf =>
      cases nb with
      | NonNull => simp [Ty.fix_fn_first_argument_cf_nullability, cf_fix_applies]
      | Nullable => simp [Ty.fix_fn_first_argument_cf_nullability, cf_fix_applies]
      | Unspecified =>
        cases is_cf with
        | false => simp [Ty.fix_fn_first_argument_cf_nullability, cf_fix_applies]
        | true =>
          simp only [Ty.fix_fn_first_argument_cf_nullability, cf_fix_applies]
          split
          next hcond =>
            constructor
            · intro _
              exact hcond
            · intro _
              simp
          next hcond =>
            constructor
            · intro hne
              exact (hne rfl).elim
            · intro hc
              exact absurd hc hcond
    | Primitive p => simp [Ty.fix_fn_first_argument_cf_nullability, cf_fix_applies]
    | Class d g pr => simp [Ty.fix_fn_first_argument_cf_nullability, cf_fix_applies]
    | GenericParam n => simp [Ty.fix_fn_first_argument_cf_nullability, cf_fix_applies]
    | AnyObject pr => simp [Ty.fix_fn_first_argument_cf_nullability, cf_fix_applies]
    | AnyProtocol => simp [Ty.fix_fn_first_argument_cf_nullability, cf_fix_applies]
    | AnyClass pr => simp [Ty.fix_fn_first_argument_cf_nullability, cf_fix_applies]
    | Self_ => simp [Ty.fix_fn_first_argument_cf_nullability, cf_fix_applies]
    | Sel nb => simp [Ty.fix_fn_first_argument_cf_nullability, cf_fix_applies]
    | Pointer nb c lt pointee => simp [Ty.fix_fn_first_argument_cf_nullability, cf_fix_applies]
    | IncompleteArray nb c pointee =>
      simp [Ty.fix_fn_first_argument_cf_nullability, cf_fix_applies]
    | Array e n => simp [Ty.fix_fn_first_argument_cf_nullability, cf_fix_applies]
    | RustArray e n => simp [Ty.fix_fn_first_argument_cf_nullability, cf_fix_applies]
    | Enum id ty => simp [Ty.fix_fn_first_argument_cf_nullability, cf_fix_applies]
    | Struct id f b => simp [Ty.fix_fn_first_argument_cf_nullability, cf_fix_applies]
    | Fn v ne a r => simp [Ty.fix_fn_first_argument_cf_nullability, cf_fix_applies]
    | Block s ne a r => simp [Ty.fix_fn_first_argument_cf_nullability, cf_fix_applies]
  · intro fn_name id lt toTy h
    simp only [cf_fix_applies] at h
    simp only [Ty.fix_fn_first_argument_cf_nullability]
    split
    next => rfl
    next hne => exact absurd h hne

/-- C7 witness: the upgrade law applied to the `CFStringRef` argument of
`CFStringCreateCopy`. -/
theorem c7_witness :
    (Ty.TypeDef { name := "CFStringRef" } .Unspecified .Unspecified
        (Ty.Pointer .Unspecified false .Unspecified (Ty.Struct { name := "__CFString" } [] true))
        true).fix_fn_first_argument_cf_nullability "CFStringCreateCopy" =
      Ty.TypeDef { name := "CFStringRef" } .NonNull .Unspecified
        (Ty.Pointer .Unspecified false .Unspecified (Ty.Struct { name := "__CFString" } [] true))
        true :=
  c7_cf_nullability_fix.2.1 "CFStringCreateCopy" { name := "CFStringRef" } .Unspecified
    (Ty.Pointer .Unspecified false .Unspecified (Ty.Struct { name := "__CFString" } [] true))
    (by rfl)

/-- C6 counterexample: the claim says every object-like typedef renders
as a retained handle in method-return position, but a typedef whose
target is a static object (here `AnyClass`) is object-like yet renders
through the plain fallback as `" -> *mut X"`, not as an optional
retained handle. -/
theorem c6_counterexample :
    Ty.method_return 5 c6StaticTypedef = " -> *mut X" ∧
    c6StaticTypedef.is_object_like = true ∧
    Ty.method_return 5 c6StaticTypedef ≠ " -> Option<Retained<X>>" := by
  refine ⟨by rfl, by rfl, ?_⟩
  rw [show Ty.method_return 5 c6StaticTypedef = " -> *mut X" from rfl]
  decide

/-- C6 (amended): in method-return position, a pointer with `Unspecified`
lifetime whose pointee is object-like and not a static object renders as
`" -> Retained<P>"` when `NonNull` and `" -> Option<Retained<P>>"`
otherwise; an object-like or CF typedef that is *not a static object*
renders the same way using the typedef's name; and both boolean
primitives render as `" -> bool"`. -/
theorem c6_method_return (fuel : Nat) :
    (∀ (nb : Nullability) (c : Bool) (pointee : Ty),
      pointee.is_object_like = true → pointee.is_static_object = false →
      Ty.method_return (fuel + 1) (Ty.Pointer nb c .Unspecified pointee) =
        (if nb = .NonNull then " -> Retained<" ++ Ty.behind_pointer fuel pointee ++ ">"
         else " -> Option<Retained<" ++ Ty.behind_pointer fuel pointee ++ ">>")) ∧
    (∀ (id : ItemIdentifier) (nb : Nullability) (lt : Lifetime) (toTy : Ty) (is_cf : Bool),
      ((Ty.TypeDef id nb lt toTy is_cf).is_object_like || is_cf) = true →
      (Ty.TypeDef id nb lt toTy is_cf).is_static_object = false →
      Ty.method_return (fuel + 1) (Ty.TypeDef id nb lt toTy is_cf) =
        (if nb = .NonNull then " -> Retained<" ++ id.path ++ ">"
         else " -> Option<Retained<" ++ id.path ++ ">>")) ∧
    Ty.method_return (fuel + 1) (Ty.Primitive .C99Bool) = " -> bool" ∧
    Ty.method_return (fuel + 1) (Ty.Primitive .ObjcBool) = " -> bool" := by
  refine ⟨?_, ?_, by simp [Ty.method_return], by simp [Ty.method_return]⟩
  · intro nb c pointee hobj hstat
    simp [Ty.method_return, hobj, hstat]
  · intro id nb lt toTy is_cf hobj hstat
    simp only [Ty.method_return, hobj, hstat]
    simp

/-- C6 witness: the retained-handle rendering at a concrete nonnull
pointer-to-class return. -/
theorem c6_witness :
    Ty.method_return 5 (Ty.Pointer .NonNull false .Unspecified clsNSString) =
      " -> Retained<NSString>" :=
  ((c6_method_return 4).1 .NonNull false clsNSString (by rfl) (by rfl)).trans (by rfl)

/-- C8 counterexample: a method return of type `id<NSCopying>` (a
pointer to `AnyObject` with a protocol) whose selector `init` is in the
related-result family is *not* rewritten by the related-result fix: it
only logs a warning and the return still does not contain `Self_`. -/
theorem c8_counterexample :
    runPM (global_analysis_related_result "init" c8ProtocolReturn) =
      .ok (c8ProtocolReturn, [LogEvent.warnEvent "related result type with protocols"]) ∧
    selector_in_related_result_family "init" = true ∧
    c8ProtocolReturn.contains_self = false := by
  refine ⟨by rfl, by rfl, ?_⟩
  simp [c8ProtocolReturn, Ty.contains_self]

/-- C8 (amended): the related-result fix rewrites the pointee of a bare
`id` return (no protocol qualifiers) to `Self_`, so the rewritten return
contains `Self_`; an `id<...>` return with protocols is left unchanged
with a warning. -/
theorem c8_related_result (nb : Nullability) (c : Bool) (lt : Lifetime) :
    (runPM (Ty.Pointer nb c lt (Ty.AnyObject [])).try_fix_related_result_type =
      .ok (Ty.Pointer nb c lt Ty.Self_, [])) ∧
    (∀ (p : ItemRef) (ps : List ItemRef),
      runPM (Ty.Pointer nb c lt (Ty.AnyObject (p :: ps))).try_fix_related_result_type =
        .ok (Ty.Pointer nb c lt (Ty.AnyObject (p :: ps)),
          [LogEvent.warnEvent "related result type with protocols"])) ∧
    (∀ sel : String, selector_in_related_result_family sel = true →
      runPM (global_analysis_related_result sel (Ty.Pointer nb c lt (Ty.AnyObject []))) =
        .ok (Ty.Pointer nb c lt Ty.Self_, [])) ∧
    (Ty.Pointer nb c lt Ty.Self_).contains_self = true := by
  refine ⟨by rfl, ?_, ?_, by simp [Ty.contains_self]⟩
  · intro p ps
    rfl
  · intro sel hsel
    simp only [global_analysis_related_result, hsel]
    rfl

/-- C8 witness: the rewrite law applied at a concrete `id` return of an
`init` method. -/
theorem c8_witness :
    runPM (global_analysis_related_result "initWithFrame:"
        (Ty.Pointer .Unspecified false .Unspecified (Ty.AnyObject []))) =
      .ok (Ty.Pointer .Unspecified false .Unspecified Ty.Self_, []) :=
  (c8_related_result .Unspecified false .Unspecified).2.2.1 "initWithFrame:" (by rfl)

/-- The per-triple loop keeps the first triple's result and accepts
exactly when every later triple's result equals it. -/
theorem parseLoop_some_ok_iff {Lib : Type} [DecidableEq Lib] (parseFn : String → Lib)
    (r L : Lib) (ts : List String) :
    parseLoop parseFn (some r) ts = .ok L ↔ (L = r ∧ ∀ t ∈ ts, parseFn t = r) := by
  induction ts with
  | nil =>
    simp only [parseLoop, List.not_mem_nil]
    constructor
    · intro h
      cases h
      exact ⟨rfl, by simp⟩
    · intro h
      rw [h.1]
  | cons t ts ih =>
    simp only [parseLoop]
    by_cases h : parseFn t = r
    · rw [if_pos h, ih]
      constructor
      · intro ⟨h1, h2⟩
        exact ⟨h1, by simpa [h] using h2⟩
      · intro ⟨h1, h2⟩
        exact ⟨h1, fun u hu => h2 u (by simp [hu])⟩
    · rw [if_neg h]
      constructor
      · intro hc
        cases hc
      · intro ⟨h1, h2⟩
        exact absurd (h2 t (by simp)) h

/-- C1 counterexample: for a library configured for both macOS and iOS
(with every SDK platform available), the driver's triple list contains
only the macOS triple — the configured iOS platform is never parsed —
and running the driver with a parse function that returns the triple
itself succeeds, returning the macOS triple (were every supported
platform parsed, the cross-triple equality assertion would have
failed). -/
theorem c1_counterexample :
    chosenTargets c1DataBoth c1SdksAll = .ok ["arm64-apple-macosx10.12.0"] ∧
    parse_library (fun t => t) c1DataBoth c1SdksAll = .ok "arm64-apple-macosx10.12.0" ∧
    c1DataBoth.ios.isSome = true ∧
    "arm64-apple-ios10.0.0" ∉ ["arm64-apple-macosx10.12.0"] := by
  refine ⟨by rfl, by rfl, by rfl, by decide⟩

/-- C1 (amended): the driver selects a single preferred SDK platform per
library (macOS before iOS before Mac Catalyst before tvOS before watchOS
before visionOS) and iterates only that platform's configured LLVM
triples; it succeeds with library `L` exactly when the triple list is
nonempty, the first triple parses to `L`, and every subsequent triple's
parsed-and-analyzed library equals the first — any inequality (or an
empty triple list) is fatal. -/
theorem c1_multi_target {Lib : Type} [DecidableEq Lib] (parseFn : String → Lib)
    (data : LibraryConfig) (sdks : List Platform) (L : Lib) :
    parse_library parseFn data sdks = .ok L ↔
      ∃ t0 ts, chosenTargets data sdks = .ok (t0 :: ts) ∧ parseFn t0 = L ∧
        ∀ t ∈ ts, parseFn t = L := by
  unfold parse_library
  cases h : chosenTargets data sdks with
  | error e =>
    simp only [h, Bind.bind, Except.bind]
    constructor
    · intro hc
      cases hc
    · rintro ⟨t0, ts, hts, -⟩
      cases hts
  | ok targets =>
    simp only [h, Bind.bind, Except.bind]
    cases targets with
    | nil =>
      simp only [parseLoop]
      constructor
      · intro hc
        cases hc
      · rintro ⟨t0, ts, hts, -⟩
        cases hts
    | cons t0 ts =>
      simp only [parseLoop, parseLoop_some_ok_iff]
      constructor
      · intro ⟨h1, h2⟩
        subst h1
        exact ⟨t0, ts, rfl, rfl, h2⟩
      · rintro ⟨t0', ts', hts, hL, hall⟩
        injection hts with hts
        cases hts
        exact ⟨hL.symm, fun t ht => (hall t ht).trans hL.symm⟩

/-- C1 witness: the driver law evaluated for a two-triple scenario where
both triples parse equal (accepted, returning the common library). -/
theorem c1_witness :
    parse_library (fun _ => (0 : Nat)) { tvos := some "9.0" } [.AppleTvOs] = .ok 0 :=
  (c1_multi_target (fun _ => (0 : Nat)) { tvos := some "9.0" } [.AppleTvOs] 0).mpr
    ⟨"arm64-apple-tvos", [], by rfl, rfl, by simp⟩

/-- Running a bound computation: run the first part on the empty log and
feed its value and log to the continuation. -/
theorem runPM_bind {α β : Type} (x : PM α) (f : α → PM β) :
    runPM (x >>= f) =
      match runPM x with
      | .ok (a, s) => (f a).run s
      | .error e => .error e := by
  have h : runPM (x >>= f) = Except.bind (runPM x) (fun p => (f p.1).run p.2) := rfl
  rw [h]
  cases runPM x with
  | ok p => rfl
  | error e => rfl

/-- C5 counterexample: parsing the attributed spelling
`"const char * _Nonnull  _Nonnull[]"` against the canonical spelling
`"const char *[]"` (as the claim states it) yields
`IncompleteArray{NonNull, is_const: false, pointee: Pointer{const, Char}}`
— not the claimed `{NonNull, is_const: true, pointee: Char}` — and the
double-appearance rule does not apply (the canonical spelling lacks the
token), so one `_Nonnull` survives and the scope-exit check logs an
attribute-parser error. -/
theorem c5_counterexample :
    runPM (Ty.parse 4 c5Input .Unspecified {}) =
      .ok (Ty.IncompleteArray .NonNull false
            (Ty.Pointer .Unspecified true .Unspecified (Ty.Primitive .Char)),
          [LogEvent.errorEvent "could not extract all attributes"]) ∧
    Ty.IncompleteArray .NonNull false
        (Ty.Pointer .Unspecified true .Unspecified (Ty.Primitive .Char)) ≠
      Ty.IncompleteArray .NonNull true (Ty.Primitive .Char) ∧
    [LogEvent.errorEvent "could not extract all attributes"] ≠ ([] : List LogEvent) := by
  refine ⟨by rfl, by simp, by simp⟩

/-- C5 (amended): when the canonical spelling is
`"const char * _Nonnull[]"` (the element's nullability printed once, as
Clang does), the doubled `_Nonnull` is consumed under the
double-appearance strip rule: the result is
`IncompleteArray{ nullability: NonNull, is_const: false,
pointee: Pointer{NonNull, const, Char} }` and no attribute-parser error
is logged. -/
theorem c5_doubled_nullability :
    runPM (Ty.parse 4 c5InputB .Unspecified {}) =
      .ok (Ty.IncompleteArray .NonNull false
            (Ty.Pointer .NonNull true .Unspecified (Ty.Primitive .Char)), []) := by
  rfl

/-- C2 counterexample: the type translator does abort on some input
types — parsing the `Float80` typedef panics with
`can't handle 80 bit MacOS float` instead of logging and continuing. -/
theorem c2_counterexample :
    runPM (Ty.parse 3 float80Input .Unspecified {}) =
      .error "can't handle 80 bit MacOS float" := by
  rfl

set_option maxHeartbeats 1000000 in
/-- C2 (amended): the enumerated soft errors are logged and translation
continues with a fallback value — an unknown type kind (any display
name without an ext-vector spelling, any nullability, any constness,
any inherited lifetime, any fuel) logs `unknown type kind` and yields
the placeholder `GenericParam{"Unknown"}`; a lifetime regression logs
and keeps the old lifetime; a nullability conflict logs and continues
with the parsed value — but the translator is *not* abort-free on every
input type (internal assertions panic, see the counterexample). -/
theorem c2_soft_errors :
    (∀ (dn : String) (nb : Option Nullability) (cq : Bool) (l : Lifetime) (fuel : Nat),
      strContains dn "ext_vector_type" = false →
      runPM (Ty.parse (fuel + 1) (unknownKindInput dn nb cq) l {}) =
        .ok (Ty.GenericParam "Unknown", [LogEvent.errorEvent "unknown type kind"])) ∧
    Lifetime.update .Strong .Weak = (.Strong, true) ∧
    runPM (check_nullability (ClangType.mk { kind := .ObjCId, displayName := "id" })
        (some .NonNull)) =
      .ok (.NonNull, [LogEvent.errorEvent "failed parsing nullability"]) := by
  refine ⟨?_, by decide, by rfl⟩
  intro dn nb cq l fuel h
  have hp : Ty.peelLoop fuel (unknownKindInput dn nb cq)
      (unknownKindInput dn nb cq).displayName (unknownKindInput dn nb cq).displayName
      none false l =
      pure (unknownKindInput dn nb cq, (unknownKindInput dn nb cq).displayName,
        (unknownKindInput dn nb cq).displayName, none, false, l) := by
    cases fuel with
    | zero => rfl
    | succ m => rfl
  rw [Ty.parse]
  split
  next hcond =>
    simp only [unknownKindInput, ClangType.displayName, ClangType.data] at hcond
    rw [h] at hcond
    exact absurd hcond (by simp)
  next hcond =>
    rw [hp]
    rfl

/-- C2 witness: the unknown-kind fallback evaluated at a concrete
half-precision type. -/
theorem c2_witness :
    runPM (Ty.parse 1 (unknownKindInput "__fp16" none false) .Unspecified {}) =
      .ok (Ty.GenericParam "Unknown", [LogEvent.errorEvent "unknown type kind"]) :=
  c2_soft_errors.1 "__fp16" none false .Unspecified 0 (by rfl)

/-- C9 counterexample: a display name containing `ext_vector_type`
together with another attribute need not short-circuit: when the other
attribute precedes it, the regex captures
`"int __attribute__((aligned(16)))"` as the primitive spelling, the
extraction fails (logging `Unhandled ext_vector_type primtiive`), and
parsing continues into the kind dispatch instead of returning a vector
type. -/
theorem c9_counterexample :
    runPM (Ty.parse 2 c9Bad .Unspecified {}) =
      .ok (Ty.GenericParam "Unknown",
        [LogEvent.errorEvent "Unhandled ext_vector_type primtiive",
         LogEvent.errorEvent "unknown type kind"]) ∧
    strContains c9Bad.displayName "ext_vector_type" = true ∧
    Ty.GenericParam "Unknown" ≠ Ty.RustArray (Ty.Primitive .Int) 3 := by
  refine ⟨by rfl, by rfl, by simp⟩

set_option maxHeartbeats 1000000 in
/-- C9 (amended): the ext-vector spelling
`"int __attribute__((ext_vector_type(4)))"` produces
`RustArray{Primitive(Int), 4}`, and whenever the display name contains
`ext_vector_type` *and the regex extraction succeeds*, `Ty::parse`
returns that vector result immediately, short-circuiting all further
parsing; when extraction fails, an error is logged and parsing
continues. -/
theorem c9_ext_vector :
    runPM (parse_ext_vector_type "int __attribute__((ext_vector_type(4)))") =
      .ok (some (Ty.RustArray (Ty.Primitive .Int) 4), []) ∧
    (∀ (fuel : Nat) (t : ClangType) (l : Lifetime) (ctx : Context) (v : Ty)
        (log : List LogEvent),
      strContains t.displayName "ext_vector_type" = true →
      runPM (parse_ext_vector_type t.displayName) = .ok (some v, log) →
      runPM (Ty.parse (fuel + 1) t l ctx) = .ok (v, log)) := by
  refine ⟨by rfl, ?_⟩
  intro fuel t l ctx v log h1 h2
  rw [Ty.parse]
  split
  next hcond =>
    rw [runPM_bind, h2]
    rfl
  next hcond =>
    exact absurd h1 hcond

/-- C9 witness: the short-circuit law evaluated at a concrete `int`
vector type with fuel 1. -/
theorem c9_witness :
    runPM (Ty.parse 1 c9Good .Unspecified {}) =
      .ok (Ty.RustArray (Ty.Primitive .Int) 4, []) :=
  c9_ext_vector.2 0 c9Good .Unspecified {} (Ty.RustArray (Ty.Primitive .Int) 4) [] (by rfl)
    (by rfl)

end HeaderTranslator
